import Mathlib

/-!
# Verification of the ai-resume-ranker text pipeline

Shallow embedding of the repository's core text-processing and ranking code:

* `src/unnamed/part_012` — the content preprocessor (`preprocessText` and helpers);
* `src/utils/contact-filter.ts` — `filterContactInfo`;
* `src/actions/rank-candidates.ts` — `processAIResponse`, `generateMockRanking`,
  `extractKeywords`, `getWeightsFromConfig`, `rankCandidates`;
* `src/utils/ai-service.ts` — `generateText` and `generateTextWithFallbackModel`.

JavaScript strings are modelled as `List Char` (wrapped in `String` at the
interface), JS numbers as `ℚ` (the concrete values exercised here are exact),
`Math.random()` as an explicit stream of rationals, and the runtime behaviour
of the JS regexes used by the source as a small prioritized-backtracking
regex interpreter (`RE`/`reMatches`) whose ASTs transliterate the source's
regex literals.
-/

namespace ResumeRanker

/-- JS `\s` character class (the whitespace set used by `\s`, `trim`, `split`). -/
def isJsSpace (c : Char) : Bool :=
  c = ' ' || c = '\t' || c = '\n' || c = '\x0b' || c = '\x0c' || c = '\r' ||
  c.toNat = 0xa0 || c.toNat = 0x1680 ||
  (0x2000 ≤ c.toNat && c.toNat ≤ 0x200a) ||
  c.toNat = 0x2028 || c.toNat = 0x2029 || c.toNat = 0x202f ||
  c.toNat = 0x205f || c.toNat = 0x3000 || c.toNat = 0xfeff

/-- JS `\w` / word character for `\b` boundaries: `[A-Za-z0-9_]`. -/
def isWordChar (c : Char) : Bool :=
  ('a' ≤ c && c ≤ 'z') || ('A' ≤ c && c ≤ 'Z') || ('0' ≤ c && c ≤ '9') || c = '_'

/-- ASCII decimal digit. -/
def isDigitCh (c : Char) : Bool := '0' ≤ c && c ≤ '9'

/-- ASCII letter. -/
def isAsciiLetter (c : Char) : Bool := ('a' ≤ c && c ≤ 'z') || ('A' ≤ c && c ≤ 'Z')

/-- ASCII lower-casing, as `String.prototype.toLowerCase` acts on the
ASCII range (the inputs exercised by the claims are ASCII). -/
def lowerCh (c : Char) : Char :=
  if 'A' ≤ c && c ≤ 'Z' then Char.ofNat (c.toNat + 32) else c

def lowerGo (acc : List Char) : List Char → List Char
  | [] => acc.reverse
  | c :: r => lowerGo (lowerCh c :: acc) r

def lowerL (s : List Char) : List Char := lowerGo [] s

/-- `String.prototype.toLowerCase`. -/
def jsToLower (s : String) : String := ⟨lowerL s.data⟩

/-- `a.startsWith b` on char lists. -/
def startsWithL : List Char → List Char → Bool
  | _, [] => true
  | [], _ :: _ => false
  | c :: cs, d :: ds => c = d && startsWithL cs ds

/-- `String.prototype.includes` (substring occurrence). -/
def includesL : List Char → List Char → Bool
  | s, pat =>
    match s with
    | [] => startsWithL [] pat
    | _ :: rest => startsWithL s pat || includesL rest pat

def jsIncludes (s pat : String) : Bool := includesL s.data pat.data

/-- `String.prototype.trim` (strips JS whitespace on both ends). -/
def trimL (s : List Char) : List Char :=
  (s.dropWhile isJsSpace).reverse.dropWhile isJsSpace |>.reverse

def jsTrim (s : String) : String := ⟨trimL s.data⟩

/-- Tail-recursive list length (kernel evaluation is iterative, unlike
`List.length`, whose evaluation recursion is as deep as the list). -/
def lenGo : Nat → List Char → Nat
  | acc, [] => acc
  | acc, _ :: t => lenGo (acc + 1) t

def lenL (l : List Char) : Nat := lenGo 0 l

theorem lenGo_eq (acc : Nat) (l : List Char) : lenGo acc l = acc + l.length := by
  induction l generalizing acc with
  | nil => simp [lenGo]
  | cons a t ih => simp [lenGo, ih]; omega

@[simp] theorem lenL_eq (l : List Char) : lenL l = l.length := by
  simp [lenL, lenGo_eq]

/-- Tail-recursive `String.length`. -/
def strLen (s : String) : Nat := lenL s.data

@[simp] theorem strLen_eq (s : String) : strLen s = s.length := by
  cases s; simp [strLen, String.length]

/-- Tail-recursive "strictly shorter than" on lists (single simultaneous
walk; kernel evaluation is iterative). -/
def ltLen : List Char → List Char → Bool
  | _, [] => false
  | [], _ :: _ => true
  | _ :: a, _ :: b => ltLen a b

theorem ltLen_iff : ∀ a b : List Char, ltLen a b = true ↔ a.length < b.length
  | _, [] => by simp [ltLen]
  | [], _ :: _ => by simp [ltLen]
  | _ :: a, _ :: b => by simp [ltLen, ltLen_iff a b]

/-- Tail-recursive character-list equality: its kernel evaluation is
iterative, so concrete equalities between long strings can be checked
without deep recursion. -/
def eqL : List Char → List Char → Bool
  | [], [] => true
  | a :: as, b :: bs => if a = b then eqL as bs else false
  | _, _ => false

theorem eqL_sound : ∀ a b, eqL a b = true → a = b
  | [], [], _ => rfl
  | a :: as, b :: bs, h => by
    by_cases hab : a = b
    · simp only [eqL, hab, if_true] at h
      rw [hab, eqL_sound as bs h]
    · simp [eqL, hab] at h
  | [], _ :: _, h => by simp [eqL] at h
  | _ :: _, [], h => by simp [eqL] at h

/-- Concrete `String` equality via `eqL`. -/
theorem eqStr_of {a b : String} (h : eqL a.data b.data = true) : a = b := by
  cases a; cases b
  exact congrArg String.mk (eqL_sound _ _ h)

/-! ## Prioritized-backtracking regex interpreter

`RE` transliterates the regex literals appearing in the source; `reMatches`
returns, in JS backtracking priority order, the ways a pattern can match a
prefix of the input.  Each result is `(last consumed char, remaining suffix)`;
the previous-character context is threaded for `\b`.  Greedy quantifiers put
the longer alternative first, exactly as the JS engine prefers.  A `star`
iteration that consumes nothing is dropped, matching the JS rule that an
empty quantifier body ends the loop. -/

inductive RE where
  /-- single-character class (a literal char is `cls (· = c)`) -/
  | cls (p : Char → Bool)
  /-- literal character sequence -/
  | lit (l : List Char)
  /-- case-insensitive literal (a `/.../i` literal alternative) -/
  | litci (l : List Char)
  | cat (a b : RE)
  /-- ordered alternation: left branch preferred -/
  | alt (a b : RE)
  /-- greedy `?` -/
  | opt (a : RE)
  /-- greedy `*` -/
  | star (a : RE)
  /-- `\b` -/
  | wordB
  /-- `$` without the `m` flag: end of input only -/
  | eos

namespace RE

/-- Case-insensitive literal prefix match. -/
def startsWithCi : List Char → List Char → Bool
  | _, [] => true
  | [], _ :: _ => false
  | c :: cs, d :: ds => lowerCh c = lowerCh d && startsWithCi cs ds

/-- `\b` holds at a position iff exactly one of the neighbouring characters
is a word character. -/
def boundaryAt (prev : Option Char) (s : List Char) : Bool :=
  let pw := match prev with | some c => isWordChar c | none => false
  let nw := match s with | c :: _ => isWordChar c | [] => false
  pw != nw

/-- Greedy `*` iteration.  The gas list only bounds the number of
iterations: every counted iteration consumes at least one character of
`s` (the JS rule that an empty quantifier-body match ends the loop), so
with the subject itself as gas the `[]` case is only reached when `s` is
empty, where it coincides with the zero-iteration result. -/
def starFuel (m : Option Char → List Char → List (Option Char × List Char)) :
    List Char → Option Char → List Char → List (Option Char × List Char)
  | [], prev, s => [(prev, s)]
  | _ :: gas, prev, s =>
    (((m prev s).filter fun pr => ltLen pr.2 s).flatMap
      fun pr => starFuel m gas pr.1 pr.2) ++ [(prev, s)]

/-- All ways `r` can match a prefix of `s`, in JS backtracking priority
order; `prev` is the character of the *original* subject string immediately
before `s` (for `\b`). -/
def reMatches : RE → Option Char → List Char → List (Option Char × List Char)
  | cls p, _, s =>
    (match s with
    | c :: rest => if p c then [(some c, rest)] else []
    | [] => [])
  | lit l, prev, s =>
    if startsWithL s l then
      [((s.take l.length).getLast? <|> prev, s.drop l.length)]
    else []
  | litci l, prev, s =>
    if startsWithCi s l then
      [((s.take l.length).getLast? <|> prev, s.drop l.length)]
    else []
  | cat a b, prev, s =>
    (reMatches a prev s).flatMap fun pr => reMatches b pr.1 pr.2
  | alt a b, prev, s => reMatches a prev s ++ reMatches b prev s
  | opt a, prev, s => reMatches a prev s ++ [(prev, s)]
  | star a, prev, s => starFuel (reMatches a) s prev s
  | wordB, prev, s => if boundaryAt prev s then [(prev, s)] else []
  | eos, prev, s => if s.isEmpty then [(prev, s)] else []

end RE

/-- First (JS-preferred) match of `r` at the start of `s`, if any. -/
def reFirst (r : RE) (prev : Option Char) (s : List Char) :
    Option (Option Char × List Char) :=
  (RE.reMatches r prev s).head?

/-- `String.prototype.replace` with a `g`-flagged regex and a constant
replacement: leftmost scan; after a match, scanning resumes at the match
end with the original string's characters as look-around context; an empty
match copies one character (the JS `lastIndex` bump).  The gas list only
bounds the step count: each step consumes at least one character, so with
the subject itself as gas the `[]` case is only reached with an empty
remainder, which it returns unchanged. -/
def reReplaceGo (r : RE) (repl : List Char) :
    List Char → Option Char → List Char → List Char
  | [], _, s => s
  | _ :: gas, prev, s =>
    match reFirst r prev s with
    | some (p', s') =>
      if ltLen s' s then
        repl ++ reReplaceGo r repl gas p' s'
      else
        match s with
        | c :: rest => repl ++ c :: reReplaceGo r repl gas (some c) rest
        | [] => repl
    | none =>
      match s with
      | c :: rest => c :: reReplaceGo r repl gas (some c) rest
      | [] => []

def reReplaceAll (r : RE) (repl : String) (s : String) : String :=
  ⟨reReplaceGo r repl.data s.data none s.data⟩

/-- `regex.test(s)`: does `r` match anywhere in `s`? -/
def reTestGo (r : RE) (prev : Option Char) (s : List Char) : Bool :=
  match reFirst r prev s with
  | some _ => true
  | none =>
    match s with
    | c :: rest => reTestGo r (some c) rest
    | [] => false

def reTest (r : RE) (s : String) : Bool := reTestGo r none s.data

/-- `r+` as the source regexes use it (`r` then `r*`). -/
def REplus (a : RE) : RE := .cat a (.star a)

/-- `r{n}` (exact repetition). -/
def RErep (a : RE) : Nat → RE
  | 0 => .lit []
  | n + 1 => .cat a (RErep a n)

/-- A literal string pattern. -/
def RElit (s : String) : RE := .lit s.data

/-! ## JS `String.prototype.split` variants used by the source -/

theorem dropWhile_length_le (p : Char → Bool) (l : List Char) :
    (l.dropWhile p).length ≤ l.length := by
  induction l with
  | nil => simp
  | cons a l ih =>
    by_cases h : p a
    · simp only [List.dropWhile_cons, h, if_true]
      exact ih.trans (by simp)
    · simp [List.dropWhile_cons, h]

/-- `split(/p+/)`-style splitting: every maximal run of characters
satisfying `p` is a separator; JS emits empty pieces at the ends when the
string starts or ends with a separator.  The gas list only bounds the
step count (each step consumes at least one character), so with the
subject itself as gas the `[]` case is unreachable for a non-empty
remainder. -/
def splitRunsGo (p : Char → Bool) :
    List Char → List Char → List Char → List (List Char)
  | [], acc, _ => [acc.reverse]
  | _ :: gas, acc, s =>
    match s with
    | [] => [acc.reverse]
    | c :: rest =>
      if p c then acc.reverse :: splitRunsGo p gas [] (rest.dropWhile p)
      else splitRunsGo p gas (c :: acc) rest

/-- `text.split(/\n+/)`. -/
def splitNewlines (s : String) : List String :=
  (splitRunsGo (· = '\n') s.data [] s.data).map fun l => ⟨l⟩

/-- `text.split(/\n\n+/)`: separators are runs of **two or more**
newlines; a single newline stays inside a piece.  Gas as above. -/
def splitBlankGo : List Char → List Char → List Char → List (List Char)
  | [], acc, _ => [acc.reverse]
  | _ :: gas, acc, s =>
    match s with
    | '\n' :: '\n' :: rest =>
      acc.reverse :: splitBlankGo gas [] (rest.dropWhile (· = '\n'))
    | c :: rest => splitBlankGo gas (c :: acc) rest
    | [] => [acc.reverse]

def splitBlankLines (s : String) : List String :=
  (splitBlankGo s.data [] s.data).map fun l => ⟨l⟩

/-- Sentence-ending punctuation class `[.!?]` of the lookbehind split. -/
def isSentPunct (c : Char) : Bool := c = '.' || c = '!' || c = '?'

/-- `split(/(?<=[.!?])\s+/)`: a separator is a maximal whitespace run whose
preceding character is `.`, `!` or `?`.  After skipping a run the
lookbehind context is a whitespace character, which is never in `[.!?]`,
so passing the run's first character as the new `prev` is faithful.
Gas as above. -/
def splitSentGo : List Char → Option Char → List Char → List Char → List (List Char)
  | [], _, acc, _ => [acc.reverse]
  | _ :: gas, prev, acc, s =>
    match s with
    | [] => [acc.reverse]
    | c :: rest =>
      if isJsSpace c && (match prev with | some p => isSentPunct p | none => false) then
        acc.reverse :: splitSentGo gas (some c) [] (rest.dropWhile isJsSpace)
      else
        splitSentGo gas (some c) (c :: acc) rest

def splitSentences (s : String) : List String :=
  (splitSentGo s.data none [] s.data).map fun l => ⟨l⟩

/-- `text.split("\n")` with a literal separator (empty pieces kept). -/
def splitOnCharGo (sep : Char) (acc : List Char) : List Char → List (List Char)
  | [] => [acc.reverse]
  | c :: rest =>
    if c = sep then acc.reverse :: splitOnCharGo sep [] rest
    else splitOnCharGo sep (c :: acc) rest

def splitOnChar (c : Char) (s : String) : List String :=
  (splitOnCharGo c [] s.data).map fun l => ⟨l⟩

/-- Keep the first occurrence of each element, preserving order
(`[...new Set(xs)]`). -/
def dedupFirst [DecidableEq α] : List α → List α :=
  go []
where go [DecidableEq α] (seen : List α) : List α → List α
  | [] => []
  | x :: xs => if x ∈ seen then go seen xs else x :: go (x :: seen) xs

/-! ## Content preprocessor (`src/unnamed/part_012`) -/

inductive ContentType where
  | resume
  | jobDescription
deriving DecidableEq

/-- `MAX_RESUME_LENGTH` -/
def MAX_RESUME_LENGTH : Nat := 4000
/-- `MAX_JOB_DESCRIPTION_LENGTH` -/
def MAX_JOB_DESCRIPTION_LENGTH : Nat := 2000

/-- `Array.prototype.join` (structural, kernel-reducible). -/
def joinSep (sep : String) : List String → String
  | [] => ""
  | [x] => x
  | x :: xs => x ++ sep ++ joinSep sep xs

/-- `normalizeWhitespace`: collapse `\s+` runs to one space, turn `". "`
into `".\n"`, trim. -/
def normalizeWhitespace (text : String) : String :=
  let n1 := reReplaceAll (REplus (.cls isJsSpace)) " " text
  let n2 := reReplaceAll (RElit ". ") ".\n" n1
  jsTrim n2

/-- The `fillerPhrases` array, in source order. -/
def fillerPhrases : List String :=
  [ "References available upon request"
  , "References available on request"
  , "References available"
  , "Responsible for"
  , "Duties included"
  , "Duties include"
  , "I am a"
  , "I have a"
  , "I have been"
  , "I am experienced in"
  , "I am proficient in"
  , "I am skilled in"
  , "I am an experienced"
  , "I am a skilled"
  , "I am a proficient"
  , "I am a hard-working"
  , "I am a dedicated"
  , "I am a motivated"
  , "I am a passionate"
  , "I am a creative"
  , "I am an innovative"
  , "I am a team player"
  , "I am a problem solver"
  , "I am a quick learner"
  , "I am a self-starter"
  , "I am a results-oriented"
  , "I am a detail-oriented"
  , "I am a highly motivated"
  , "I am a highly skilled"
  , "I am a highly experienced"
  , "I am a highly qualified"
  , "I am a highly dedicated"
  , "I am a highly passionate"
  , "I am a highly creative"
  , "I am a highly innovative" ]

/-- `removeFillerPhrases`: each phrase removed with a `gi` regex, in order. -/
def removeFillerPhrases (text : String) : String :=
  fillerPhrases.foldl (fun acc phrase => reReplaceAll (.litci phrase.data) "" acc) text

/-- Sentence fingerprint: `sentence.toLowerCase().replace(/[^a-z0-9]/g, "")`. -/
def fingerprintOf (sentence : String) : List Char :=
  (lowerL sentence.data).filter fun c =>
    ('a' ≤ c && c ≤ 'z') || ('0' ≤ c && c ≤ '9')

/-- The per-paragraph sentence dedup loop: drop sentences whose fingerprint
is shorter than 10 or already seen. -/
def dedupSentences (seen : List (List Char)) : List String → List String
  | [] => []
  | sentence :: rest =>
    let fp := fingerprintOf sentence
    if lenL fp < 10 || seen.contains fp then dedupSentences seen rest
    else sentence :: dedupSentences (fp :: seen) rest

/-- `removeDuplicateContent`. -/
def removeDuplicateContent (text : String) : String :=
  let paragraphs := splitNewlines text
  let uniqueParagraphs := dedupFirst paragraphs
  let processedParagraphs := uniqueParagraphs.map fun paragraph =>
    joinSep " " (dedupSentences [] (splitSentences paragraph))
  joinSep "\n\n" (processedParagraphs.filter fun p => jsTrim p ≠ "")

/-- Ordered alternation of case-insensitive literals. -/
def altci : List String → RE
  | [] => .lit [' ']  -- unreachable: the source alternations are non-empty
  | [w] => .litci w.data
  | w :: ws => .alt (.litci w.data) (altci ws)

/-- `\b(W1|W2|...)\b` with the `i` flag. -/
def wordAlt (ws : List String) : RE := .cat .wordB (.cat (altci ws) .wordB)

/-- An apostrophe (kept out of string literals). -/
def apos : String := ⟨[Char.ofNat 39]⟩

/-- Resume section patterns, `(name, regex)` in source order. -/
def resumeSectionPatterns : List (String × RE) :=
  [ ("SKILLS", wordAlt ["SKILLS", "TECHNICAL SKILLS", "CORE COMPETENCIES",
      "KEY SKILLS", "EXPERTISE", "PROFICIENCIES"])
  , ("EXPERIENCE", wordAlt ["EXPERIENCE", "WORK EXPERIENCE", "EMPLOYMENT",
      "WORK HISTORY", "PROFESSIONAL EXPERIENCE"])
  , ("EDUCATION", wordAlt ["EDUCATION", "ACADEMIC BACKGROUND",
      "ACADEMIC QUALIFICATIONS", "QUALIFICATIONS"])
  , ("PROJECTS", wordAlt ["PROJECTS", "PROJECT EXPERIENCE", "KEY PROJECTS",
      "RELEVANT PROJECTS"])
  , ("CERTIFICATIONS", wordAlt ["CERTIFICATIONS", "CERTIFICATES", "LICENSES",
      "ACCREDITATIONS"]) ]

/-- Job-description section patterns, `(name, regex)` in source order. -/
def jobSectionPatterns : List (String × RE) :=
  [ ("REQUIREMENTS", wordAlt ["REQUIREMENTS", "QUALIFICATIONS",
      "SKILLS REQUIRED", "REQUIRED SKILLS", "WHAT YOU" ++ apos ++ "LL NEED"])
  , ("RESPONSIBILITIES", wordAlt ["RESPONSIBILITIES", "DUTIES", "JOB DUTIES",
      "WHAT YOU" ++ apos ++ "LL DO", "ROLE DESCRIPTION"])
  , ("BENEFITS", wordAlt ["BENEFITS", "PERKS", "WHAT WE OFFER",
      "COMPENSATION", "SALARY"])
  , ("COMPANY", wordAlt ["ABOUT US", "COMPANY", "WHO WE ARE", "OUR TEAM",
      "THE COMPANY"]) ]

/-- The line-categorization loop: each line is assigned to the section of
the first pattern it matches, otherwise to the current section (both
branches of the source `if` push the line to `currentSection`). -/
def categorizeLines (patterns : List (String × RE)) :
    List String → String → List (String × String)
  | [], _ => []
  | line :: rest, currentSection =>
    let sec :=
      match patterns.find? fun np => reTest np.2 line with
      | some np => np.1
      | none => currentSection
    (sec, line) :: categorizeLines patterns rest sec

/-- Reassemble the prioritized sections: each section's lines joined by
`"\n"`, blank sections dropped, sections joined by `"\n\n"`. -/
def rebuildSections (prioritized : List String)
    (assigned : List (String × String)) : String :=
  let parts := prioritized.map fun sec =>
    joinSep "\n" ((assigned.filter fun sl => sl.1 = sec).map (·.2))
  joinSep "\n\n" (parts.filter fun p => jsTrim p ≠ "")

/-- `extractResumeInformation`. -/
def extractResumeInformation (text : String) : String :=
  rebuildSections
    ["HEADER", "SKILLS", "EXPERIENCE", "EDUCATION", "PROJECTS",
     "CERTIFICATIONS", "OTHER"]
    (categorizeLines resumeSectionPatterns (splitOnChar '\n' text) "HEADER")

/-- `extractJobDescriptionInformation`. -/
def extractJobDescriptionInformation (text : String) : String :=
  rebuildSections
    ["HEADER", "REQUIREMENTS", "RESPONSIBILITIES", "COMPANY", "BENEFITS",
     "OTHER"]
    (categorizeLines jobSectionPatterns (splitOnChar '\n' text) "HEADER")

/-- `extractKeyInformation`. -/
def extractKeyInformation (text : String) (type : ContentType) : String :=
  match type with
  | .resume => extractResumeInformation text
  | .jobDescription => extractJobDescriptionInformation text

/-- The prioritization predicate of `smartTruncate` for each content type
(`lowerSection.includes(...)`). -/
def truncPriority (type : ContentType) (section' : String) : Bool :=
  let ls := jsToLower section'
  match type with
  | .resume =>
    jsIncludes ls "skill" || jsIncludes ls "experience" || jsIncludes ls "education"
  | .jobDescription =>
    jsIncludes ls "requirement" || jsIncludes ls "qualification" ||
    jsIncludes ls "responsibilit" || jsIncludes ls "duties"

/-- Inner sentence-packing loop of `smartTruncate` (note: the guard checks
`result + sentence` but appends `" " + sentence` when `result` is
non-empty). -/
def packSentences (maxLength : Nat) : List String → String → String
  | [], result => result
  | sentence :: rest, result =>
    if strLen (result ++ sentence) ≤ maxLength then
      packSentences maxLength rest
        (result ++ (if result = "" then "" else " ") ++ sentence)
    else result

/-- Prioritized-section loop of `smartTruncate` (the guard checks
`result + section` but appends `"\n\n" + section` when `result` is
non-empty; the first section that does not fit is sentence-packed and the
loop breaks). -/
def packPrioritized (maxLength : Nat) : List String → String → String
  | [], result => result
  | sec :: rest, result =>
    if strLen (result ++ sec) ≤ maxLength then
      packPrioritized maxLength rest
        (result ++ (if result = "" then "" else "\n\n") ++ sec)
    else packSentences maxLength (splitSentences sec) result

/-- Non-prioritized-section loop of `smartTruncate`. -/
def packOthers (maxLength : Nat) : List String → String → String
  | [], result => result
  | sec :: rest, result =>
    if strLen (result ++ "\n\n" ++ sec) ≤ maxLength then
      packOthers maxLength rest (result ++ "\n\n" ++ sec)
    else result

/-- `smartTruncate`. -/
def smartTruncate (text : String) (maxLength : Nat) (type : ContentType) :
    String :=
  if strLen text ≤ maxLength then text
  else
    let sections := splitBlankLines text
    let prioritizedSections := sections.filter (truncPriority type)
    let otherSections := sections.filter fun s => !(truncPriority type s)
    packOthers maxLength otherSections (packPrioritized maxLength prioritizedSections "")

/-- `preprocessText` (`src/unnamed/part_012`, lines 14–38). -/
def preprocessText (text : String) (type : ContentType) : String :=
  if text = "" then ""
  else
    let p1 := normalizeWhitespace text
    let p2 := removeFillerPhrases p1
    let p3 := removeDuplicateContent p2
    let p4 := extractKeyInformation p3 type
    let maxLength :=
      if type = .resume then MAX_RESUME_LENGTH else MAX_JOB_DESCRIPTION_LENGTH
    if strLen p4 > maxLength then smartTruncate p4 maxLength type else p4

/-! ## JSON values and `JSON.parse`

JS values produced by `JSON.parse` are modelled by `Json`; numbers are
exact rationals (the numeric literals exercised by the claims are small
integers, where JS doubles are exact). -/

inductive Json where
  | null
  | bool (b : Bool)
  | num (q : ℚ)
  | str (s : String)
  | arr (elems : List Json)
  | obj (fields : List (String × Json))

/-- JS truthiness of a value (`NaN` cannot arise from `JSON.parse`). -/
def jsTruthy : Json → Bool
  | .null => false
  | .bool b => b
  | .num q => q ≠ 0
  | .str s => s ≠ ""
  | .arr _ => true
  | .obj _ => true

/-- Property access `v[key]`: `none` models JS `undefined` (and also the
`TypeError` on `null`/non-objects, which the callers below catch into the
same fallback path).  Duplicate keys in a JSON text: the last one wins. -/
def jsGet (v : Json) (key : String) : Option Json :=
  match v with
  | .obj fields => ((fields.reverse).find? fun f => f.1 = key).map (·.2)
  | _ => none

/-- `v[key]` as a truthy-or-default test (`v.key || dflt`). -/
def jsGetOr (v : Json) (key : String) (dflt : Json) : Json :=
  match jsGet v key with
  | some w => if jsTruthy w then w else dflt
  | none => dflt

/-- JSON whitespace accepted between tokens by `JSON.parse`. -/
def isJsonWs (c : Char) : Bool := c = ' ' || c = '\t' || c = '\n' || c = '\r'

def skipJsonWs (s : List Char) : List Char := s.dropWhile isJsonWs

/-- One hex digit. -/
def hexVal (c : Char) : Option Nat :=
  let n := c.toNat
  if 48 ≤ n && n ≤ 57 then some (n - 48)
  else if 97 ≤ n && n ≤ 102 then some (n - 87)
  else if 65 ≤ n && n ≤ 70 then some (n - 55)
  else none

/-- Decode a single-character JSON escape. -/
def simpleEscape (e : Char) : Option Char :=
  if e = '"' then some '"'
  else if e = '\\' then some '\\'
  else if e = '/' then some '/'
  else if e = 'b' then some '\x08'
  else if e = 'f' then some '\x0c'
  else if e = 'n' then some '\n'
  else if e = 'r' then some '\r'
  else if e = 't' then some '\t'
  else none

/-- JSON string body after the opening quote; handles the escape forms of
the JSON grammar (astral `\u` surrogate pairing is not modelled — no input
in this development contains `\u` escapes).  The gas list (the input
suffix itself) bounds the step count; each step consumes a character. -/
def parseJsonString : List Char → List Char → Option (String × List Char)
  | [], _ => none
  | _ :: gas, s =>
    match s with
    | [] => none
    | '"' :: rest => some ("", rest)
    | '\\' :: 'u' :: h1 :: h2 :: h3 :: h4 :: rest =>
      (match hexVal h1, hexVal h2, hexVal h3, hexVal h4 with
      | some a, some b, some c, some d =>
        (parseJsonString gas rest).map fun tr =>
          (⟨Char.ofNat (((a * 16 + b) * 16 + c) * 16 + d) :: tr.1.data⟩, tr.2)
      | _, _, _, _ => none)
    | '\\' :: e :: rest =>
      (match simpleEscape e with
      | some ch => (parseJsonString gas rest).map fun tr => (⟨ch :: tr.1.data⟩, tr.2)
      | none => none)
    | c :: rest =>
      if c.toNat < 32 then none
      else (parseJsonString gas rest).map fun tr => (⟨c :: tr.1.data⟩, tr.2)

/-- Digit run with its value. -/
def takeDigits (s : List Char) : List Char × List Char :=
  (s.takeWhile isDigitCh, s.dropWhile isDigitCh)

def digitsToNat (ds : List Char) : Nat :=
  ds.foldl (fun acc c => acc * 10 + (c.toNat - '0'.toNat)) 0

/-- JSON number: `-? int frac? exp?` with the strict JSON grammar
(no leading zeros, mandatory digits after `.` and the exponent). -/
def parseJsonNumber (s : List Char) : Option (ℚ × List Char) :=
  let (neg, s1) := match s with
    | '-' :: r => (true, r)
    | _ => (false, s)
  let intPart : Option (Nat × List Char) :=
    match s1 with
    | '0' :: r => some (0, r)
    | c :: _ =>
      if isDigitCh c then
        let (ds, r) := takeDigits s1
        some (digitsToNat ds, r)
      else none
    | [] => none
  match intPart with
  | none => none
  | some (ip, s2) =>
    let fracPart : Option (ℚ × List Char) :=
      match s2 with
      | '.' :: r =>
        let (ds, r') := takeDigits r
        if ds.isEmpty then none
        else some ((digitsToNat ds : ℚ) / ((10 : ℚ) ^ ds.length), r')
      | _ => some (0, s2)
    match fracPart with
    | none => none
    | some (fp, s3) =>
      let expPart : Option (ℤ × List Char) :=
        match s3 with
        | e :: r =>
          if e = 'e' || e = 'E' then
            let (esign, r1) := match r with
              | '-' :: r' => ((-1 : ℤ), r')
              | '+' :: r' => ((1 : ℤ), r')
              | _ => ((1 : ℤ), r)
            let (ds, r2) := takeDigits r1
            if ds.isEmpty then none else some (esign * (digitsToNat ds : ℤ), r2)
          else some (0, s3)
        | [] => some (0, s3)
      match expPart with
      | none => none
      | some (ex, s4) =>
        let mag : ℚ := ((ip : ℚ) + fp) * (10 : ℚ) ^ ex
        some (if neg then -mag else mag, s4)

mutual

/-- Recursive-descent JSON value parser.  The fuel only bounds nesting
depth; every recursive call first consumes at least one character, so
`input length + 1` fuel can never run out. -/
def parseJsonValue (fuel : Nat) (s : List Char) : Option (Json × List Char) :=
  match fuel with
  | 0 => none
  | fuel + 1 =>
    let s := skipJsonWs s
    match s with
    | [] => none
    | c :: rest =>
      if c = '{' then
        let s1 := skipJsonWs rest
        match s1 with
        | '}' :: r => some (.obj [], r)
        | _ => parseJsonMembers fuel s1 []
      else if c = '[' then
        let s1 := skipJsonWs rest
        match s1 with
        | ']' :: r => some (.arr [], r)
        | _ => parseJsonElements fuel s1 []
      else if c = '"' then
        match parseJsonString rest rest with
        | some (str, r) => some (.str str, r)
        | none => none
      else if startsWithL s "true".data then some (.bool true, s.drop 4)
      else if startsWithL s "false".data then some (.bool false, s.drop 5)
      else if startsWithL s "null".data then some (.null, s.drop 4)
      else
        match parseJsonNumber s with
        | some (q, r) => some (.num q, r)
        | none => none

/-- Object members after `{` (first member's leading whitespace already
skipped). -/
def parseJsonMembers (fuel : Nat) (s : List Char) (acc : List (String × Json)) :
    Option (Json × List Char) :=
  match fuel with
  | 0 => none
  | fuel + 1 =>
    match skipJsonWs s with
    | '"' :: r =>
      match parseJsonString r r with
      | some (key, r1) =>
        match skipJsonWs r1 with
        | ':' :: r2 =>
          match parseJsonValue fuel r2 with
          | some (v, r3) =>
            let acc := acc ++ [(key, v)]
            match skipJsonWs r3 with
            | ',' :: r4 => parseJsonMembers fuel r4 acc
            | '}' :: r4 => some (.obj acc, r4)
            | _ => none
          | none => none
        | _ => none
      | none => none
    | _ => none

/-- Array elements after `[` (first element's leading whitespace already
skipped). -/
def parseJsonElements (fuel : Nat) (s : List Char) (acc : List Json) :
    Option (Json × List Char) :=
  match fuel with
  | 0 => none
  | fuel + 1 =>
    match parseJsonValue fuel s with
    | some (v, r) =>
      let acc := acc ++ [v]
      match skipJsonWs r with
      | ',' :: r1 => parseJsonElements fuel r1 acc
      | ']' :: r1 => some (.arr acc, r1)
      | _ => none
    | none => none

end

/-- `JSON.parse`: `none` models a thrown `SyntaxError`. -/
def jsonParse (text : String) : Option Json :=
  match parseJsonValue (strLen text + 1) text.data with
  | some (v, rest) => if (skipJsonWs rest).isEmpty then some v else none
  | none => none

/-! ## Contact-info redactor (`src/utils/contact-filter.ts`) -/

/-- `[A-Za-z0-9._%+-]` (email local part). -/
def isEmailLocal (c : Char) : Bool :=
  isAsciiLetter c || isDigitCh c || c = '.' || c = '_' || c = '%' || c = '+' || c = '-'

/-- `[A-Za-z0-9.-]` (email domain). -/
def isEmailDomain (c : Char) : Bool :=
  isAsciiLetter c || isDigitCh c || c = '.' || c = '-'

/-- `[-.\s]` (phone separators). -/
def isPhoneSep (c : Char) : Bool := c = '-' || c = '.' || isJsSpace c

/-- `[a-zA-Z0-9_-]` (profile slug). -/
def isSlugChar (c : Char) : Bool := isAsciiLetter c || isDigitCh c || c = '_' || c = '-'

/-- `[A-Z]`. -/
def isUpperCh (c : Char) : Bool := 'A' ≤ c && c ≤ 'Z'

/-- `[A-Za-z\s]`. -/
def isAlphaSpace (c : Char) : Bool := isAsciiLetter c || isJsSpace c

def REdigit : RE := .cls isDigitCh

/-- `/\b[A-Za-z0-9._%+-]+@[A-Za-z0-9.-]+\.[A-Za-z]{2,}\b/` -/
def emailRE : RE :=
  .cat .wordB (.cat (REplus (.cls isEmailLocal)) (.cat (.cls (· = '@'))
    (.cat (REplus (.cls isEmailDomain)) (.cat (.cls (· = '.'))
      (.cat (RErep (.cls isAsciiLetter) 2)
        (.cat (.star (.cls isAsciiLetter)) .wordB))))))

/-- `/\d{3}[-.\s]?\d{3}[-.\s]?\d{4}/` -/
def phoneDashRE : RE :=
  .cat (RErep REdigit 3) (.cat (.opt (.cls isPhoneSep))
    (.cat (RErep REdigit 3) (.cat (.opt (.cls isPhoneSep)) (RErep REdigit 4))))

/-- `/$$\d{3}$$[-.\s]?\d{3}[-.\s]?\d{4}/` — transliterated exactly: each
`$` is an end-of-input anchor (the `m` flag is absent), so the pattern
demands digits *after* the end of the input and can never match. -/
def phoneParenRE : RE :=
  .cat .eos (.cat .eos (.cat (RErep REdigit 3) (.cat .eos (.cat .eos
    (.cat (.opt (.cls isPhoneSep)) (.cat (RErep REdigit 3)
      (.cat (.opt (.cls isPhoneSep)) (RErep REdigit 4))))))))

/-- `/\+\d{1,3}[-.\s]?\d{3}[-.\s]?\d{3}[-.\s]?\d{4}/` -/
def phoneIntlRE : RE :=
  .cat (.cls (· = '+'))
    (.cat (.cat REdigit (.opt (.cat REdigit (.opt REdigit))))
      (.cat (.opt (.cls isPhoneSep)) (.cat (RErep REdigit 3)
        (.cat (.opt (.cls isPhoneSep)) (.cat (RErep REdigit 3)
          (.cat (.opt (.cls isPhoneSep)) (RErep REdigit 4)))))))

/-- `/linkedin\.com\/in\/[a-zA-Z0-9_-]+/` -/
def linkedinRE : RE := .cat (RElit "linkedin.com/in/") (REplus (.cls isSlugChar))

/-- `/www\.linkedin\.com\/in\/[a-zA-Z0-9_-]+/` -/
def linkedinWwwRE : RE := .cat (RElit "www.linkedin.com/in/") (REplus (.cls isSlugChar))

/-- `/https?:\/\/(?:www\.)?linkedin\.com\/in\/[a-zA-Z0-9_-]+/` -/
def linkedinHttpRE : RE :=
  .cat (RElit "http") (.cat (.opt (.cls (· = 's'))) (.cat (RElit "://")
    (.cat (.opt (RElit "www.")) (.cat (RElit "linkedin.com/in/")
      (REplus (.cls isSlugChar))))))

/-- `/github\.com\/[a-zA-Z0-9_-]+/` -/
def githubRE : RE := .cat (RElit "github.com/") (REplus (.cls isSlugChar))

/-- `/twitter\.com\/[a-zA-Z0-9_-]+/` -/
def twitterRE : RE := .cat (RElit "twitter.com/") (REplus (.cls isSlugChar))

/-- `/facebook\.com\/[a-zA-Z0-9_-]+/` -/
def facebookRE : RE := .cat (RElit "facebook.com/") (REplus (.cls isSlugChar))

/-- `/\d+\s+[A-Za-z\s]+,\s+[A-Za-z\s]+,\s+[A-Z]{2}\s+\d{5}/` -/
def addressRE : RE :=
  .cat (REplus REdigit) (.cat (REplus (.cls isJsSpace))
    (.cat (REplus (.cls isAlphaSpace)) (.cat (.cls (· = ','))
      (.cat (REplus (.cls isJsSpace)) (.cat (REplus (.cls isAlphaSpace))
        (.cat (.cls (· = ',')) (.cat (REplus (.cls isJsSpace))
          (.cat (RErep (.cls isUpperCh) 2) (.cat (REplus (.cls isJsSpace))
            (RErep REdigit 5))))))))))

/-- `filterContactInfo` (`src/utils/contact-filter.ts`, lines 11–36). -/
def filterContactInfo (text : String) : String :=
  if text = "" then ""
  else
    let f := reReplaceAll emailRE "[EMAIL REMOVED]" text
    let f := reReplaceAll phoneDashRE "[PHONE REMOVED]" f
    let f := reReplaceAll phoneParenRE "[PHONE REMOVED]" f
    let f := reReplaceAll phoneIntlRE "[PHONE REMOVED]" f
    let f := reReplaceAll linkedinRE "[LINKEDIN REMOVED]" f
    let f := reReplaceAll linkedinWwwRE "[LINKEDIN REMOVED]" f
    let f := reReplaceAll linkedinHttpRE "[LINKEDIN REMOVED]" f
    let f := reReplaceAll githubRE "[GITHUB REMOVED]" f
    let f := reReplaceAll twitterRE "[TWITTER REMOVED]" f
    let f := reReplaceAll facebookRE "[FACEBOOK REMOVED]" f
    let f := reReplaceAll addressRE "[ADDRESS REMOVED]" f
    f

/-! The universal truncation bound: the pack loops can exceed the budget
by at most the two characters of a `"\n\n"` separator (the guards check
`result + section` but append `separator + section`). -/

theorem sep_length_le_one (r : String) :
    (if r = "" then ("" : String) else " ").length ≤ 1 := by
  split <;> decide

theorem sep2_length_le_two (r : String) :
    (if r = "" then ("" : String) else "\n\n").length ≤ 2 := by
  split <;> decide

theorem packSentences_length_le (maxLength : Nat) (sents : List String) :
    ∀ r : String, r.length ≤ maxLength + 2 →
      (packSentences maxLength sents r).length ≤ maxLength + 2 := by
  induction sents with
  | nil => intro r h; simpa [packSentences] using h
  | cons sent rest ih =>
    intro r h
    rw [packSentences]
    split
    case isTrue hle =>
      apply ih
      rw [strLen_eq, String.length_append] at hle
      have hsep := sep_length_le_one r
      simp only [String.length_append]
      omega
    case isFalse => exact h

theorem packPrioritized_length_le (maxLength : Nat) (secs : List String) :
    ∀ r : String, r.length ≤ maxLength + 2 →
      (packPrioritized maxLength secs r).length ≤ maxLength + 2 := by
  induction secs with
  | nil => intro r h; simpa [packPrioritized] using h
  | cons sec rest ih =>
    intro r h
    rw [packPrioritized]
    split
    case isTrue hle =>
      apply ih
      rw [strLen_eq, String.length_append] at hle
      have hsep := sep2_length_le_two r
      simp only [String.length_append]
      omega
    case isFalse => exact packSentences_length_le maxLength _ r h

theorem packOthers_length_le (maxLength : Nat) (secs : List String) :
    ∀ r : String, r.length ≤ maxLength + 2 →
      (packOthers maxLength secs r).length ≤ maxLength + 2 := by
  induction secs with
  | nil => intro r h; simpa [packOthers] using h
  | cons sec rest ih =>
    intro r h
    rw [packOthers]
    split
    case isTrue hle =>
      apply ih
      rw [strLen_eq] at hle
      omega
    case isFalse => exact h

theorem smartTruncate_length_le (text : String) (maxLength : Nat)
    (type : ContentType) :
    (smartTruncate text maxLength type).length ≤ maxLength + 2 := by
  rw [smartTruncate]
  split
  case isTrue hle => rw [strLen_eq] at hle; omega
  case isFalse =>
    exact packOthers_length_le _ _ _
      (packPrioritized_length_le _ _ "" (by simp))

theorem preprocessText_length_le (text : String) (type : ContentType) :
    (preprocessText text type).length ≤
      (if type = .resume then MAX_RESUME_LENGTH else MAX_JOB_DESCRIPTION_LENGTH) + 2 := by
  rw [preprocessText]
  split
  case isTrue => simp
  case isFalse =>
    show (if strLen (extractKeyInformation (removeDuplicateContent
          (removeFillerPhrases (normalizeWhitespace text))) type) >
        (if type = .resume then MAX_RESUME_LENGTH else MAX_JOB_DESCRIPTION_LENGTH) then
      smartTruncate (extractKeyInformation (removeDuplicateContent
          (removeFillerPhrases (normalizeWhitespace text))) type)
        (if type = .resume then MAX_RESUME_LENGTH else MAX_JOB_DESCRIPTION_LENGTH) type
    else extractKeyInformation (removeDuplicateContent
          (removeFillerPhrases (normalizeWhitespace text))) type).length ≤
      (if type = .resume then MAX_RESUME_LENGTH else MAX_JOB_DESCRIPTION_LENGTH) + 2
    by_cases hgt : strLen (extractKeyInformation (removeDuplicateContent
          (removeFillerPhrases (normalizeWhitespace text))) type) >
        (if type = .resume then MAX_RESUME_LENGTH else MAX_JOB_DESCRIPTION_LENGTH)
    · rw [if_pos hgt]; exact smartTruncate_length_le _ _ _
    · rw [if_neg hgt]; rw [strLen_eq] at hgt; omega

/-! ## AI gateway (`src/utils/ai-service.ts`)

The HTTP world is a parameter: each of the two functions performs at most
one `fetch`, whose outcome (`Except` = thrown error) the environment
provides, together with the environment-detector flags and the API-key
presence.  JS exceptions inside the `try` bodies are modelled with
`Except String`; the `catch` handlers make both functions total. -/

def MODEL : String := "gpt-4o"
def FALLBACK_MODEL : String := "gpt-3.5-turbo"

structure GenerateTextOptions where
  model : String
  prompt : String
  system : Option String
  temperature : Option ℚ
  maxTokens : Option ℚ

structure GenerateTextResult where
  text : String
  error : Option String
  usedFallback : Bool

/-- A `fetch` response: HTTP status flag and the body-retrieval outcome
(`response.text()` / the text behind `response.json()`). -/
structure FetchResponse where
  ok : Bool
  body : Except String String

structure AiEnv where
  /-- `isProduction()` -/
  isProd : Bool
  /-- `isPreview()` -/
  isPrev : Bool
  /-- truthiness of `OPENAI_API_KEY || process.env.OPENAI_API_KEY` -/
  hasApiKey : Bool
  /-- outcome of the `fetch` issued by `generateText` -/
  primaryFetch : Except String FetchResponse
  /-- outcome of the `fetch` issued by `generateTextWithFallbackModel` -/
  fallbackFetch : Except String FetchResponse

/-- `response.json()`. -/
def respJson (r : FetchResponse) : Except String Json :=
  match r.body with
  | .error e => .error e
  | .ok t =>
    match jsonParse t with
    | some j => .ok j
    | none => .error "Unexpected token in JSON"

/-- Array index access `v[0]` (`none` = `undefined`). -/
def jsIndex (v : Json) (i : ℕ) : Option Json :=
  match v with
  | .arr l => l.get? i
  | _ => none

/-- `x?.message?.content || ""` style extraction; non-string message
content is not exercised by any input in this development and is mapped
to `""`. -/
def contentToText (v : Option Json) : String :=
  match v with
  | some (.str s) => s
  | _ => ""

/-- The `/\{[\s\S]*\}/` rescue: from the first `{` (that has a later `}`)
to the last `}` of the text. -/
def braceSlice (s : String) : Option String :=
  let cs := s.data
  match (cs.reverse.findIdx? fun c => c = Char.ofNat 125).map
      (fun rj => lenL cs - 1 - rj) with
  | none => none
  | some j =>
    match (cs.take j).findIdx? fun c => c = Char.ofNat 123 with
    | none => none
    | some i => some ⟨(cs.take (j + 1)).drop i⟩

/-- The synthetic well-formed payload returned when the gateway cannot
produce model text (the template literal of the source, with the analysis
sentence substituted). -/
def syntheticPayload (analysis : String) : String :=
  "\x7b\"rankedCandidates\":[\x7b\"name\":\"Fallback Ranking\",\"score\":50," ++
  "\"strengths\":[\"This is a fallback ranking due to API issues\"]," ++
  "\"weaknesses\":[\"Unable to perform detailed analysis\"]," ++
  "\"analysis\":\"" ++ analysis ++ "\"\x7d]\x7d"

/-- The production-mode OK-response handling shared (textually) by both
gateway tiers: robust JSON recovery, structure validation, missing-message
content extraction.  `usedFb` is the `usedFallback` value for the
plain-success return; `missingMsgAnalysis` the analysis sentence of the
synthetic payload for a missing message.  Errors are the thrown strings,
caught by the respective `parseError` handlers.  `robustParse` is the
`try { JSON.parse } catch { match(/\x7b[\s\S]*\x7d/) rescue }` step. -/
def robustParse (responseText : String) (parseFailMsg : String) :
    Except String Json :=
  match jsonParse responseText with
  | some d => .ok d
  | none =>
    match braceSlice responseText with
    | some sub =>
      match jsonParse sub with
      | some d => .ok d
      | none => .error parseFailMsg
    | none => .error parseFailMsg

def prodResponseHandling (resp : FetchResponse) (usedFb : Bool)
    (missingMsgAnalysis : String) (parseFailMsg : String) :
    Except String GenerateTextResult :=
  match resp.body with
  | .error e => .error e
  | .ok responseText =>
    match robustParse responseText parseFailMsg with
    | .error e => .error e
    | .ok data =>
      match jsGet data "choices" with
      | none => .error "Invalid response format"
      | some choices =>
        if !(jsTruthy data && jsTruthy choices) then .error "Invalid response format"
        else
          match jsIndex choices 0 with
          | none => .error "Invalid response format"
          | some c0 =>
            if !(jsTruthy c0) then .error "Invalid response format"
            else
              match jsGet c0 "message" with
              | some msg =>
                if jsTruthy msg then
                  .ok { text := contentToText (jsGet msg "content"),
                        error := none, usedFallback := usedFb }
                else
                  .ok (missingMessageResult c0 usedFb missingMsgAnalysis)
              | none => .ok (missingMessageResult c0 usedFb missingMsgAnalysis)
where
  /-- the `!data.choices[0].message` branch -/
  missingMessageResult (c0 : Json) (usedFb : Bool) (analysis : String) :
      GenerateTextResult :=
    let extractedContent :=
      match jsGet c0 "text" with
      | some t =>
        if jsTruthy t then contentToText (some t)
        else
          match jsGet c0 "delta" with
          | some d =>
            if jsTruthy d then contentToText (jsGet d "content") else ""
          | none => ""
      | none =>
        match jsGet c0 "delta" with
        | some d => if jsTruthy d then contentToText (jsGet d "content") else ""
        | none => ""
    if extractedContent ≠ "" then
      { text := extractedContent, error := none, usedFallback := usedFb }
    else
      { text := syntheticPayload analysis, error := none, usedFallback := true }

/-- `generateTextWithFallbackModel` (`src/utils/ai-service.ts`, lines
231–385). -/
def generateTextWithFallbackModel (env : AiEnv) (_options : GenerateTextOptions) :
    GenerateTextResult :=
  let prodMode := env.isProd && !env.isPrev
  let attempt : Except String GenerateTextResult :=
    if !env.hasApiKey then .error "OpenAI API key is missing"
    else
      match env.fallbackFetch with
      | .error e => .error e
      | .ok resp =>
        if !resp.ok then
          let errorData : Json :=
            match respJson resp with
            | .ok j => j
            | .error _ =>
              .obj [("error", .obj [("message", .str "Failed to parse error response")])]
          let msg : String :=
            match jsGet errorData "error" with
            | some ev =>
              match jsGet ev "message" with
              | some (.str m) => if m ≠ "" then m else "Unknown error"
              | _ => "Unknown error"
            | none => "Unknown error"
          .error ("Fallback model API error: " ++ msg)
        else if prodMode then
          match prodResponseHandling resp true
              "The AI service encountered an error: Missing message content in fallback response. Using built-in ranking algorithm instead."
              "Failed to parse response from fallback model" with
          | .ok r => .ok r
          | .error _ =>
            -- `parseError` handler: a valid JSON payload even on failure
            .ok { text := syntheticPayload
                    "The AI service encountered an error while parsing the fallback model response. Using built-in ranking algorithm instead.",
                  error := none, usedFallback := true }
        else
          match respJson resp with
          | .error e => .error e
          | .ok data =>
            match jsGet data "choices" with
            | none => .error "Invalid response format from fallback model"
            | some choices =>
              if !(jsTruthy data && jsTruthy choices) then
                .error "Invalid response format from fallback model"
              else
                match jsIndex choices 0 with
                | none => .error "Invalid response format from fallback model"
                | some c0 =>
                  match jsGet c0 "message" with
                  | some msg =>
                    if jsTruthy c0 && jsTruthy msg then
                      .ok { text := contentToText (jsGet msg "content"),
                            error := none, usedFallback := true }
                    else .error "Invalid response format from fallback model"
                  | none => .error "Invalid response format from fallback model"
  match attempt with
  | .ok r => r
  | .error e =>
    if prodMode then
      { text := syntheticPayload
          ("The AI service encountered an error with the fallback model: " ++ e ++
           ". Using built-in ranking algorithm instead."),
        error := some e, usedFallback := true }
    else
      { text := "Error with fallback model: " ++ e ++ ". Using built-in ranking algorithm.",
        error := some e, usedFallback := true }

/-- `generateText` (`src/utils/ai-service.ts`, lines 26–226). -/
def generateText (env : AiEnv) (options : GenerateTextOptions) :
    GenerateTextResult :=
  let prodMode := env.isProd && !env.isPrev
  let modelName1 :=
    if options.model = "gpt-4o" then "gpt-4o"
    else if options.model ≠ FALLBACK_MODEL then FALLBACK_MODEL
    else options.model
  let modelName := if prodMode then FALLBACK_MODEL else modelName1
  let attempt : Except String GenerateTextResult :=
    if !env.hasApiKey then .error "OpenAI API key is missing"
    else
      match env.primaryFetch with
      | .error e => .error e
      | .ok resp =>
        if !resp.ok then
          let errorData : Json :=
            match respJson resp with
            | .ok j => j
            | .error _ =>
              .obj [("error", .obj [("message", .str "Failed to parse error response")])]
          let msgV : Json :=
            match jsGet errorData "error" with
            | some ev =>
              match jsGet ev "message" with
              | some m => if jsTruthy m then m else .str "Unknown error"
              | none => .str "Unknown error"
            | none => .str "Unknown error"
          match msgV with
          | .str m =>
            if jsIncludes m "does not exist" || jsIncludes m "not available" ||
               jsIncludes m "access to" || jsIncludes m "permission" then
              .ok (generateTextWithFallbackModel env options)
            else if modelName = MODEL then
              .ok (generateTextWithFallbackModel env options)
            else .error ("OpenAI API error: " ++ m)
          | _ => .error "errorMessage.includes is not a function"
        else if prodMode then
          match prodResponseHandling resp (modelName ≠ MODEL)
              "The AI service encountered an error: Missing message content in response. Using built-in ranking algorithm instead."
              "Failed to parse response from OpenAI API" with
          | .ok r => .ok r
          | .error _ => .ok (generateTextWithFallbackModel env options)
        else
          match respJson resp with
          | .error e => .error e
          | .ok data =>
            match jsGet data "choices" with
            | none => .error "Invalid response format from OpenAI API"
            | some choices =>
              if !(jsTruthy data && jsTruthy choices) then
                .error "Invalid response format from OpenAI API"
              else
                match jsIndex choices 0 with
                | none => .error "Invalid response format from OpenAI API"
                | some c0 =>
                  match jsGet c0 "message" with
                  | some msg =>
                    if jsTruthy c0 && jsTruthy msg then
                      .ok { text := contentToText (jsGet msg "content"),
                            error := none, usedFallback := modelName ≠ MODEL }
                    else .error "Invalid response format from OpenAI API"
                  | none => .error "Invalid response format from OpenAI API"
  match attempt with
  | .ok r => r
  | .error e =>
    if !(jsIncludes options.model FALLBACK_MODEL) then
      generateTextWithFallbackModel env options
    else if prodMode then
      { text := syntheticPayload
          ("The AI service encountered an error: " ++ e ++
           ". Using built-in ranking algorithm instead."),
        error := some e, usedFallback := true }
    else
      { text := "Error generating text: " ++ e ++ ". Using fallback ranking.",
        error := some e, usedFallback := true }

/-! ## Candidate ranking (`src/actions/rank-candidates.ts`)

`Math.random()` is an explicit stream `rnd : ℕ → ℚ` with a cursor `k`
threaded through every call of `generateDefaultCategoryScores` (the only
consumer of randomness). -/

structure Candidate where
  id : String
  name : String
  resume : String

structure WeightCategory where
  id : String
  name : String
  weight : ℚ
  description : String

structure WeightConfig where
  useCustomWeights : Bool
  categories : List WeightCategory

structure PreprocessStats where
  original : ℚ
  processed : ℚ
  percentReduction : ℚ

/-- An output ranking entry.  `name`/`strengths`/`weaknesses`/`analysis`
keep the JS values (the reconciler passes non-string AI values through);
`score` is always a number after reconciliation; `categoryScores` is
absent only in the error/warning entries of `rankCandidates`. -/
structure RankedCandidate where
  name : Json
  score : ℚ
  strengths : List Json
  weaknesses : List Json
  analysis : Json
  categoryScores : Option Json

structure RankingResult where
  rankedCandidates : List RankedCandidate
  preprocessStats : Option PreprocessStats

/-- `Math.round` (half away from zero is a JS myth: JS rounds half *up*,
i.e. `⌊q + 1/2⌋`). -/
def jsRound (q : ℚ) : ℤ := (q + 1/2).floor

/-- `Array.prototype.sort((a, b) => b.score - a.score)`: ES2019 requires a
stable sort, and a stable sort of a list by a total preorder is unique, so
any stable sorting algorithm models it; insertion sort is used because it
is structurally recursive (kernel-reducible). -/
def jsSortByScoreDesc (l : List RankedCandidate) : List RankedCandidate :=
  l.insertionSort fun a b => b.score ≤ a.score

/-- The fixed seven category keys, in object-literal order. -/
def categoryNames : List String :=
  ["technical_skills", "experience", "education", "location", "soft_skills",
   "industry_knowledge", "certifications"]

/-- `Math.floor(Math.random() * 30) + 50` for one category. -/
def catScore (r : ℚ) : ℚ := (((r * 30).floor : ℤ) : ℚ) + 50

/-- `generateDefaultCategoryScores` (lines 425–435): seven fresh
`Math.random()` draws, one per category, in field order.  Returns the
score object (as an association list on `categoryNames`) and the advanced
random cursor. -/
def generateDefaultCategoryScores (rnd : ℕ → ℚ) (k : ℕ) :
    List (String × ℚ) × ℕ :=
  ((categoryNames.enum.map fun ni => (ni.2, catScore (rnd (k + ni.1)))), k + 7)

def catScoresToJson (cs : List (String × ℚ)) : Json :=
  .obj (cs.map fun p => (p.1, .num p.2))

def lookupAssoc (l : List (String × ℚ)) (key : String) : Option ℚ :=
  (l.find? fun p => p.1 = key).map (·.2)

/-- `extractJsonFromResponse` (lines 24–36): the match of
`/```(?:json)?\s*([\s\S]*?)```/` hand-compiled.  At the leftmost fence
with a closing fence, prefer consuming `json` (greedy `?`; since
`"json"` contains no backtick, the greedy and non-greedy alternatives
succeed or fail together), skip the maximal whitespace run (`\s*`; a
fence contains no whitespace, so no backtracking arises), then the lazy
group ends at the next fence. -/
def fenceL : List Char := ['\x60', '\x60', '\x60']

/-- Characters before the first fence occurrence, if any. -/
def beforeFence (s : List Char) : Option (List Char) :=
  if startsWithL s fenceL then some []
  else
    match s with
    | [] => none
    | c :: r => (beforeFence r).map fun t => c :: t

/-- Attempt the fence pattern at this position. -/
def tryFenceAt (s : List Char) : Option (List Char) :=
  if startsWithL s fenceL then
    let r1 := s.drop 3
    let r2 := if startsWithL r1 "json".data then r1.drop 4 else r1
    beforeFence (r2.dropWhile isJsSpace)
  else none

/-- Leftmost successful start of the fence pattern. -/
def fenceScan : List Char → Option (List Char)
  | [] => none
  | c :: r =>
    match tryFenceAt (c :: r) with
    | some content => some content
    | none => fenceScan r

def extractJsonFromResponse (text : String) : String :=
  match fenceScan text.data with
  | some content =>
    -- `if (match && match[1])`: an empty capture falls through
    if content ≠ [] then ⟨trimL content⟩ else jsTrim text
  | none => jsTrim text

/-- Field repair for one parsed AI entry (lines 314–323).  Consumes seven
random draws exactly when `categoryScores` is falsy or absent. -/
def validateAICandidate (rnd : ℕ → ℚ) (k : ℕ) (c : Json) :
    RankedCandidate × ℕ :=
  let csk : Json × ℕ :=
    match jsGet c "categoryScores" with
    | some v =>
      if jsTruthy v then (v, k)
      else
        let cs := generateDefaultCategoryScores rnd k
        (catScoresToJson cs.1, cs.2)
    | none =>
      let cs := generateDefaultCategoryScores rnd k
      (catScoresToJson cs.1, cs.2)
  ({ name := jsGetOr c "name" (.str "Unknown Candidate"),
     score := match jsGet c "score" with | some (.num q) => q | _ => 50,
     strengths :=
       match jsGet c "strengths" with
       | some (.arr l) => l
       | _ => [.str "Has relevant experience"],
     weaknesses :=
       match jsGet c "weaknesses" with
       | some (.arr l) => l
       | _ => [],
     analysis :=
       jsGetOr c "analysis"
         (.str "This candidate has been evaluated based on their resume."),
     categoryScores := some csk.1 }, csk.2)

def validateAll (rnd : ℕ → ℚ) (k : ℕ) : List Json → List RankedCandidate × ℕ
  | [] => ([], k)
  | c :: cs =>
    let e := validateAICandidate rnd k c
    let es := validateAll rnd e.2 cs
    (e.1 :: es.1, es.2)

/-- The `commonWords` stop-word set of `extractKeywords`. -/
def commonWords : List String :=
  ["a", "an", "the", "and", "or", "but", "in", "on", "at", "to", "for",
   "with", "by", "about", "as", "of", "is", "are", "was", "were", "be",
   "been", "being", "have", "has", "had", "do", "does", "did", "will",
   "would", "shall", "should", "can", "could", "may", "might", "must",
   "that", "which", "who", "whom", "whose", "this", "these", "those",
   "they", "them", "their", "what", "when", "where", "why", "how", "all",
   "any", "both", "each", "few", "more", "most", "other", "some", "such"]

/-- The punctuation class `[.,/#!$%^&*;:{}=\-_`~()]` stripped from a word
before the length/stop-word test. -/
def keywordStripChars : List Char :=
  ['.', ',', '/', '#', '!', '$', '%', '^', '&', '*', ';', ':',
   Char.ofNat 123, Char.ofNat 125, '=', '-', '_', Char.ofNat 96, '~', '(', ')']

def cleanWord (w : String) : String :=
  ⟨lowerL (w.data.filter fun c => !(keywordStripChars.contains c))⟩

def defaultKeywords : List String :=
  ["experience", "skills", "education", "communication"]

/-- `extractKeywords` (lines 557–645): split on `\s+`, keep original words
whose cleaned form is longer than 3 and not a stop word, de-duplicate. -/
def extractKeywords (text : String) : List String :=
  if text = "" then defaultKeywords
  else
    let words := (splitRunsGo isJsSpace text.data [] text.data).map fun l => (⟨l⟩ : String)
    let potentialKeywords := words.filter fun w =>
      let cleaned := cleanWord w
      strLen cleaned > 3 && !(commonWords.contains cleaned)
    if potentialKeywords.isEmpty then defaultKeywords
    else dedupFirst potentialKeywords

def defaultWeights : List (String × ℚ) :=
  [("technical_skills", 5), ("experience", 5), ("education", 3),
   ("location", 2), ("soft_skills", 3), ("industry_knowledge", 4),
   ("certifications", 2)]

/-- `customWeights[category.id] = category.weight`: JS object assignment
(first assignment fixes the position, later ones overwrite the value). -/
def upsert (l : List (String × ℚ)) (key : String) (v : ℚ) :
    List (String × ℚ) :=
  if l.any fun p => p.1 = key then
    l.map fun p => if p.1 = key then (p.1, v) else p
  else l ++ [(key, v)]

/-- `getWeightsFromConfig` (lines 648–682). -/
def getWeightsFromConfig : Option WeightConfig → List (String × ℚ)
  | none => defaultWeights
  | some wc =>
    if !wc.useCustomWeights then defaultWeights
    else if wc.categories.isEmpty then defaultWeights
    else
      let customWeights := wc.categories.foldl
        (fun acc cat => if cat.id ≠ "" then upsert acc cat.id cat.weight else acc) []
      if customWeights.isEmpty then defaultWeights else customWeights

def genericStrengths : List String :=
  ["Shows relevant experience", "Has applicable skills",
   "Background aligns with requirements"]

/-- `while (strengths.length < 3) strengths.push(generic[strengths.length % 3])`.
Each iteration grows the list by one, so three fuel units always complete
the loop. -/
def padStrengthsGo : Nat → List String → List String
  | 0, s => s
  | fuel + 1, s =>
    if s.length < 3 then
      padStrengthsGo fuel (s ++ [genericStrengths.getD (s.length % 3) ""])
    else s

def padStrengths (s : List String) : List String := padStrengthsGo 3 s

/-- The body of the weighted-total loop over `weightCategories` (lines
492–500): accumulate `(weightedScore, totalWeight)`. -/
def wtStep (cs : List (String × ℚ)) (acc : ℚ × ℚ) (w : String × ℚ) : ℚ × ℚ :=
  match lookupAssoc cs w.1 with
  | some v => (acc.1 + v * w.2, acc.2 + w.2)
  | none => acc

/-- One entry of the deterministic fallback ranking (lines 471–539). -/
def mockEntry (keywords : List String) (weights : List (String × ℚ))
    (rnd : ℕ → ℚ) (k : ℕ) (index : ℕ) (candidate : Candidate) :
    RankedCandidate × ℕ :=
  let name :=
    if jsTrim candidate.name ≠ "" then jsTrim candidate.name
    else "Candidate " ++ toString (index + 1)
  let resumeText := jsToLower candidate.resume
  let matchedKeywords := keywords.filter fun kw =>
    jsIncludes resumeText (jsToLower kw)
  let categoryScores := (generateDefaultCategoryScores rnd k).1
  let k' := (generateDefaultCategoryScores rnd k).2
  let wt : ℚ × ℚ := weights.foldl (wtStep categoryScores) (0, 0)
  let score : ℤ := min (jsRound (wt.1 / (if wt.2 = 0 then 1 else wt.2))) 95
  let strengths := padStrengths
    ((matchedKeywords.take 3).map fun kw => "Has experience with " ++ kw)
  let weaknesses :=
    if keywords ≠ [] then
      ((keywords.filter fun kw => !(jsIncludes resumeText (jsToLower kw))).take 2).map
        fun kw => "May need more experience with " ++ kw
    else []
  let analysis :=
    "This candidate matches approximately " ++ toString score ++
    "% of the job requirements based on keyword analysis. This is a fallback analysis using our built-in algorithm."
  ({ name := .str name, score := (score : ℚ),
     strengths := strengths.map .str, weaknesses := weaknesses.map .str,
     analysis := .str analysis,
     categoryScores := some (catScoresToJson categoryScores) }, k')

def mockEntries (keywords : List String) (weights : List (String × ℚ))
    (rnd : ℕ → ℚ) : ℕ → ℕ → List Candidate → List RankedCandidate × ℕ
  | k, _, [] => ([], k)
  | k, index, c :: cs =>
    let e := mockEntry keywords weights rnd k index c
    let es := mockEntries keywords weights rnd e.2 (index + 1) cs
    (e.1 :: es.1, es.2)

/-- The `"Sample Candidate"` entry returned for an empty candidate list. -/
def sampleCandidateEntry (cs : List (String × ℚ)) : RankedCandidate :=
  { name := .str "Sample Candidate", score := 75,
    strengths := [.str "Sample strength 1", .str "Sample strength 2",
                  .str "Sample strength 3"],
    weaknesses := [.str "Sample weakness"],
    analysis := .str "This is a sample candidate generated because no valid candidates were provided.",
    categoryScores := some (catScoresToJson cs) }

/-- `generateMockRanking` (lines 438–554).  The float product `* 0.7` in
the default stats is modelled exactly as `* (7/10)` (no claim observes
this value). -/
def generateMockRanking (candidates : List Candidate) (jobDescription : String)
    (weightConfig : Option WeightConfig)
    (preprocessStats : Option PreprocessStats) (rnd : ℕ → ℚ) (k : ℕ) :
    RankingResult × ℕ :=
  if candidates.isEmpty then
    let cs := generateDefaultCategoryScores rnd k
    ({ rankedCandidates := [sampleCandidateEntry cs.1],
       preprocessStats := some (preprocessStats.getD
         { original := 1000, processed := 700, percentReduction := 30 }) }, cs.2)
  else
    let keywordsFromJob := extractKeywords jobDescription
    let weights := getWeightsFromConfig weightConfig
    let entries := mockEntries keywordsFromJob weights rnd k 0 candidates
    let totalLen : ℚ :=
      (jobDescription.length : ℚ) +
        ((candidates.map fun c => c.resume.length).sum : ℚ)
    ({ rankedCandidates := jsSortByScoreDesc entries.1,
       preprocessStats := some (preprocessStats.getD
         { original := totalLen, processed := (((totalLen * (7/10)).floor : ℤ) : ℚ),
           percentReduction := 30 }) }, entries.2)

/-- `processAIResponse` (lines 294–333).  `JSON.parse` failure and the
`TypeError` of a `null` root both land in the same `catch`/invalid-structure
path, which substitutes the deterministic fallback ranking. -/
def processAIResponse (responseText : String) (validCandidates : List Candidate)
    (jobDescription : String) (weightConfig : Option WeightConfig)
    (rnd : ℕ → ℚ) (k : ℕ) : RankingResult × ℕ :=
  let cleanedText := extractJsonFromResponse responseText
  match jsonParse cleanedText with
  | none => generateMockRanking validCandidates jobDescription weightConfig none rnd k
  | some j =>
    match jsGet j "rankedCandidates" with
    | some (.arr (c :: cs)) =>
      let validated := validateAll rnd k (c :: cs)
      ({ rankedCandidates := jsSortByScoreDesc validated.1,
         preprocessStats := none }, validated.2)
    | _ => generateMockRanking validCandidates jobDescription weightConfig none rnd k

/-- Name-inference collaborators.  `src/utils/name-detector.ts` is not
part of the repository sources provided (only its import site is), so its
three functions are parameters; the claims settled here never depend on
their values (they are only reached for non-empty resumes).  An empty
string models a falsy (null/empty) result. -/
structure NameOracle where
  detectNameFromResume : String → String × ℚ
  extractEmail : String → Option String
  generateNameFromEmail : String → String

/-- Rational rendering for template interpolation; integer values render
as JS numbers do (non-integers are not exercised by the claims). -/
def ratStr (q : ℚ) : String := if q.den = 1 then toString q.num else toString q

/-- `createRankingPrompt` (lines 335–422). -/
def createRankingPrompt (jobDescription : String) (candidates : List Candidate)
    (weightConfig : Option WeightConfig) : String :=
  let weightInstructions :=
    match weightConfig with
    | some wc =>
      if wc.useCustomWeights then
        "\nUse the following category weights (scale 1-10) when evaluating candidates:\n" ++
        joinSep "\n" (wc.categories.map fun c =>
          "- " ++ c.name ++ ": " ++ ratStr c.weight ++ "/10 - " ++ c.description) ++
        "\n\nHigher weights indicate more importance for that category. Make sure your evaluation reflects these priorities.\n    "
      else
        "\nDetermine appropriate weights for different evaluation categories based on the job description.\nFor example, if the job is fully in-person, location should be weighted more heavily.\nIf technical skills are critical, they should receive a higher weight.\n    "
    | none =>
      "\nDetermine appropriate weights for different evaluation categories based on the job description.\nFor example, if the job is fully in-person, location should be weighted more heavily.\nIf technical skills are critical, they should receive a higher weight.\n    "
  let timeConstraintWarning :=
    if candidates.length > 5 then
      "\nIMPORTANT: You have a limited time to analyze these " ++
      toString candidates.length ++
      " candidates. Focus on the most important aspects of each resume to finish within the time limit.\n  "
    else ""
  "\nJob Description:\n" ++ jobDescription ++ "\n\n" ++ weightInstructions ++
  "\n\n" ++ timeConstraintWarning ++ "\n\nCandidates:\n" ++
  joinSep "\n---\n" (candidates.map fun c =>
    "\nName: " ++ c.name ++ "\nResume:\n" ++ c.resume ++ "\n") ++
  "\n\nIMPORTANT: The job description and resumes have been preprocessed to include only the most relevant information.\nPersonal contact information has been removed for privacy.\nAnalyze each candidate" ++ apos ++ "s resume against the job description. Rank them based on how well they match the requirements.\n\nFor each candidate, provide:\n1. A match score (0-100) based on how well their qualifications match the job requirements\n2. 3-5 SPECIFIC key strengths relevant to the job (mention actual skills, experiences, or qualifications from their resume)\n3. 1-3 SPECIFIC areas for improvement or missing skills (mention actual requirements from the job description that they lack)\n4. A brief analysis explaining the ranking (2-3 sentences) that references SPECIFIC aspects of their background\n5. Category scores showing how well they match in each category (technical skills, experience, education, etc.)\n\nIMPORTANT GUIDELINES:\n- Be SPECIFIC and DETAILED in your analysis - avoid generic statements\n- Reference ACTUAL skills, experiences, and qualifications from the resume\n- Compare against ACTUAL requirements from the job description\n- Do NOT use placeholder text or generic descriptions\n- Ensure strengths and weaknesses are SPECIFIC to each candidate\n- Use CONCRETE examples from their resume whenever possible\n\nIMPORTANT: Return your analysis as a JSON object with this exact structure, and ONLY the JSON object with no markdown formatting or code blocks:\n\x7b\n  \"rankedCandidates\": [\n    \x7b\n      \"name\": \"Candidate Name\",\n      \"score\": 85,\n      \"strengths\": [\"Specific strength 1 with details\", \"Specific strength 2 with details\", \"Specific strength 3 with details\"],\n      \"weaknesses\": [\"Specific weakness 1 with details\", \"Specific weakness 2 with details\"],\n      \"analysis\": \"Specific analysis of why this candidate received this ranking, referencing actual qualifications and requirements.\",\n      \"categoryScores\": \x7b\n        \"technical_skills\": 80,\n        \"experience\": 90,\n        \"education\": 75,\n        \"location\": 60,\n        \"soft_skills\": 85,\n        \"industry_knowledge\": 70,\n        \"certifications\": 65\n      \x7d\n    \x7d\n  ]\n\x7d\n"

/-- The system prompt passed to the gateway by `rankCandidates`. -/
def rankingSystemPrompt : String :=
  "You are an expert HR professional and recruiter with deep experience in matching candidates to job requirements.\nYour task is to analyze each candidate" ++ apos ++ "s resume against the job description and provide a detailed ranking.\nRespond ONLY with valid JSON in the exact format specified in the prompt. Do not include markdown formatting, code blocks, or any text outside the JSON object."

/-- The per-candidate preprocessing pass of `rankCandidates` (lines
110–144): contact filtering, preprocessing, name inference. -/
def processCandidate (oracle : NameOracle) (i : ℕ) (c : Candidate) : Candidate :=
  if c.resume = "" then c
  else
    let email := oracle.extractEmail c.resume
    let newResume := preprocessText (filterContactInfo c.resume) .resume
    let newName :=
      if jsTrim c.name ≠ "" then c.name
      else
        let dc := oracle.detectNameFromResume newResume
        if dc.1 ≠ "" && dc.2 > 2/5 then dc.1
        else
          match email with
          | some em =>
            let generatedName := oracle.generateNameFromEmail em
            if generatedName ≠ "" then generatedName
            else "Candidate " ++ toString (i + 1)
          | none => "Candidate " ++ toString (i + 1)
    { c with resume := newResume, name := newName }

/-- `candidates.map((candidate, index) => ...)`: the index-passing map,
written structurally for direct induction and kernel evaluation. -/
def mapWithIndex (f : ℕ → α → β) : ℕ → List α → List β
  | _, [] => []
  | i, a :: l => f i a :: mapWithIndex f (i + 1) l

/-- The `"Note: Analysis Limited"` warning entry (lines 196–204). -/
def warningMessage : RankedCandidate :=
  { name := .str "Note: Analysis Limited", score := 0, strengths := [.str ""],
    weaknesses := [.str "Only the first 10 candidates were analyzed due to system limitations."],
    analysis := .str "For better performance, only the first 10 candidates were analyzed. Please rank candidates in smaller batches for complete results.",
    categoryScores := none }

/-- `rankCandidates` (lines 39–291), for a call without uploaded files
(`jobDescriptionFile`/`candidateFiles` absent), which is the shape the
claims quantify over.  In this model every callee is total, so the
`preferredModelError`, `apiError` and outermost `error` handlers of the
source are unreachable: `generateText` and `processAIResponse` both catch
their own failures internally.  A zero `originalTotalLength` yields JS
`NaN` for `percentReduction`; `ℚ` division by zero yields `0` instead —
the value is never observed by a claim. -/
def rankCandidates (env : AiEnv) (oracle : NameOracle) (rnd : ℕ → ℚ) (k : ℕ)
    (jobDescription : String) (candidates : List Candidate)
    (weightConfig : Option WeightConfig) : RankingResult × ℕ :=
  let candidatesLimited := candidates.length > 10
  let originalTotalLength : ℚ :=
    (jobDescription.length : ℚ) +
      ((candidates.map fun c => c.resume.length).sum : ℚ)
  let finalJobDescription := preprocessText jobDescription .jobDescription
  let processedCandidates := mapWithIndex (processCandidate oracle) 0 candidates
  let processedTotalLength : ℚ :=
    (finalJobDescription.length : ℚ) +
      ((processedCandidates.map fun c => c.resume.length).sum : ℚ)
  let percentReduction : ℚ :=
    ((jsRound ((originalTotalLength - processedTotalLength) /
      originalTotalLength * 100) : ℤ) : ℚ)
  let preprocessStats : PreprocessStats :=
    { original := originalTotalLength, processed := processedTotalLength,
      percentReduction := percentReduction }
  if jsTrim finalJobDescription = "" then
    generateMockRanking processedCandidates "Generic Job Description"
      weightConfig (some preprocessStats) rnd k
  else
    let validCandidates := processedCandidates.filter fun c => jsTrim c.resume ≠ ""
    if validCandidates.isEmpty then
      generateMockRanking processedCandidates finalJobDescription weightConfig
        (some preprocessStats) rnd k
    else
      let prompt := createRankingPrompt finalJobDescription validCandidates weightConfig
      let response := generateText env
        { model := MODEL, prompt := prompt, system := some rankingSystemPrompt,
          temperature := some (1/5), maxTokens := some 4000 }
      let pr := processAIResponse response.text validCandidates
        finalJobDescription weightConfig rnd k
      let withWarning :=
        if candidatesLimited then
          { pr.1 with rankedCandidates := pr.1.rankedCandidates ++ [warningMessage] }
        else pr.1
      ({ withWarning with preprocessStats := some preprocessStats }, pr.2)

/-! ## No-match identity lemmas for the replace loops

The C8 development needs `normalizeWhitespace` and `removeFillerPhrases`
to leave its (long) concrete input unchanged.  Evaluating the scan loops
over the whole input is expensive, so the identities are proved once and
for all from cheap character-level side conditions. -/

/-- Element-wise string-list equality through `eqL` (the structural
`DecidableEq` on 2000-character strings recurses too deeply). -/
def eqLs : List String → List String → Bool
  | [], [] => true
  | a :: as, b :: bs => eqL a.data b.data && eqLs as bs
  | _, _ => false

theorem eqLs_sound : ∀ as bs, eqLs as bs = true → as = bs
  | [], [], _ => rfl
  | a :: as, b :: bs, h => by
    simp only [eqLs, Bool.and_eq_true] at h
    rw [eqStr_of h.1, eqLs_sound as bs h.2]
  | [], _ :: _, h => by simp [eqLs] at h
  | _ :: _, [], h => by simp [eqLs] at h

/-- If the pattern fails at every suffix (any `P`-closed family of
suffixes), the global-replace loop copies the subject unchanged; gas
exhaustion also returns the subject, so no gas bound is needed. -/
theorem reReplaceGo_id (r : RE) (repl : List Char) (P : List Char → Prop)
    (hfail : ∀ (prev : Option Char) (s : List Char), P s → reFirst r prev s = none)
    (htail : ∀ c rest, P (c :: rest) → P rest) :
    ∀ (gas s : List Char) (prev : Option Char), P s →
      reReplaceGo r repl gas prev s = s := by
  intro gas
  induction gas with
  | nil => intro s prev _; rfl
  | cons g gas ih =>
    intro s prev hP
    simp only [reReplaceGo]
    rw [hfail prev s hP]
    cases s with
    | nil => rfl
    | cons c rest =>
      show c :: reReplaceGo r repl gas (some c) rest = c :: rest
      rw [ih rest (some c) (htail c rest hP)]

/-- A literal starting with a character absent from the subject never
matches. -/
theorem reFirst_lit_none (p0 : Char) (ps : List Char) (prev : Option Char)
    (s : List Char) (h : (s.all fun c => !(c = p0)) = true) :
    reFirst (.lit (p0 :: ps)) prev s = none := by
  cases s with
  | nil => rfl
  | cons c rest =>
    have hc : (c = p0) = False := by
      have h1 := (List.all_eq_true.mp h) c (List.mem_cons_self c rest)
      simpa using h1
    simp [reFirst, RE.reMatches, startsWithL, hc]

theorem reReplaceAll_lit_id (p0 : Char) (ps : List Char) (repl : String)
    (s : String) (h : (s.data.all fun c => !(c = p0)) = true) :
    reReplaceAll (.lit (p0 :: ps)) repl s = s := by
  unfold reReplaceAll
  rw [reReplaceGo_id (.lit (p0 :: ps)) repl.data
        (fun l => (l.all fun c => !(c = p0)) = true)
        (fun prev l hl => reFirst_lit_none p0 ps prev l hl)
        (fun c rest hcr => by
          have h2 : ((c :: rest).all fun x => !(x = p0)) = true := hcr
          rw [List.all_cons, Bool.and_eq_true] at h2
          exact h2.2)
        s.data s.data none h]

/-- No two adjacent characters of the subject spell (case-insensitively)
the two leading characters of the phrase. -/
def pairFreeCi (a b : Char) : List Char → Bool
  | [] => true
  | [_] => true
  | c :: d :: rest => !(lowerCh c = a && lowerCh d = b) && pairFreeCi a b (d :: rest)

theorem pairFreeCi_tail {a b c : Char} {rest : List Char}
    (h : pairFreeCi a b (c :: rest) = true) : pairFreeCi a b rest = true := by
  cases rest with
  | nil => rfl
  | cons d r2 =>
    simp only [pairFreeCi, Bool.and_eq_true] at h
    exact h.2

theorem reFirst_litci_none (p0 p1 : Char) (ps : List Char) (prev : Option Char)
    (s : List Char) (h : pairFreeCi (lowerCh p0) (lowerCh p1) s = true) :
    reFirst (.litci (p0 :: p1 :: ps)) prev s = none := by
  cases s with
  | nil => rfl
  | cons c rest =>
    cases rest with
    | nil => simp [reFirst, RE.reMatches, RE.startsWithCi]
    | cons d r2 =>
      simp only [pairFreeCi, Bool.and_eq_true] at h
      have h1 : (decide (lowerCh c = lowerCh p0) &&
          decide (lowerCh d = lowerCh p1)) = false := by
        have h2 := h.1
        rw [Bool.not_eq_eq_eq_not, Bool.not_true] at h2
        exact h2
      rcases Bool.and_eq_false_iff.mp h1 with h2 | h2 <;>
        simp [reFirst, RE.reMatches, RE.startsWithCi, h2]

theorem reReplaceAll_litci_id (p : String) (p0 p1 : Char) (ps : List Char)
    (hp : p.data = p0 :: p1 :: ps) (s : String)
    (h : pairFreeCi (lowerCh p0) (lowerCh p1) s.data = true) :
    reReplaceAll (.litci p.data) "" s = s := by
  unfold reReplaceAll
  rw [hp]
  rw [reReplaceGo_id (.litci (p0 :: p1 :: ps)) ("" : String).data
        (fun l => pairFreeCi (lowerCh p0) (lowerCh p1) l = true)
        (fun prev l hl => reFirst_litci_none p0 p1 ps prev l hl)
        (fun c rest hcr => pairFreeCi_tail hcr)
        s.data s.data none h]

/-- Whitespace shape under which `\s+ → " "` is the identity: every
whitespace character is a single `' '` with a non-whitespace successor. -/
def wsOk : List Char → Bool
  | [] => true
  | c :: rest =>
    if c = ' ' then
      (match rest with | d :: _ => !(isJsSpace d) | [] => true) && wsOk rest
    else !(isJsSpace c) && wsOk rest

theorem reMatches_wsplus_nonspace {c : Char} (rest : List Char)
    (prev : Option Char) (hc : isJsSpace c = false) :
    RE.reMatches (REplus (.cls isJsSpace)) prev (c :: rest) = [] := by
  simp [REplus, RE.reMatches, hc]

theorem reMatches_wsplus_space (rest : List Char) (prev : Option Char)
    (hrest : (match rest with | d :: _ => !(isJsSpace d) | [] => true) = true) :
    RE.reMatches (REplus (.cls isJsSpace)) prev (' ' :: rest) =
      [(some ' ', rest)] := by
  have hsp : isJsSpace ' ' = true := by decide
  cases rest with
  | nil => simp [REplus, RE.reMatches, RE.starFuel, hsp]
  | cons d r2 =>
    have hd : isJsSpace d = false := by simpa using hrest
    simp [REplus, RE.reMatches, RE.starFuel, hsp, hd]

theorem reReplaceGo_ws_id :
    ∀ (gas s : List Char) (prev : Option Char), wsOk s = true →
      reReplaceGo (REplus (.cls isJsSpace)) [' '] gas prev s = s := by
  intro gas
  induction gas with
  | nil => intro s prev _; rfl
  | cons g gas ih =>
    intro s prev hs
    simp only [reReplaceGo]
    cases s with
    | nil => rfl
    | cons c rest =>
      by_cases hc : c = ' '
      · subst hc
        simp only [wsOk, eq_self_iff_true, if_true, Bool.and_eq_true] at hs
        rw [show reFirst (REplus (.cls isJsSpace)) prev (' ' :: rest) =
              some (some ' ', rest) from by
            unfold reFirst
            rw [reMatches_wsplus_space rest prev hs.1]
            rfl]
        show (if ltLen rest (' ' :: rest) = true then
            [' '] ++ reReplaceGo (REplus (.cls isJsSpace)) [' '] gas (some ' ') rest
          else
            [' '] ++ ' ' :: reReplaceGo (REplus (.cls isJsSpace)) [' '] gas (some ' ') rest) =
          ' ' :: rest
        rw [if_pos ((ltLen_iff rest (' ' :: rest)).mpr (by simp))]
        show ' ' :: reReplaceGo (REplus (.cls isJsSpace)) [' '] gas (some ' ') rest =
          ' ' :: rest
        rw [ih rest (some ' ') hs.2]
      · have hs2 : isJsSpace c = false ∧ wsOk rest = true := by
          simp only [wsOk, if_neg hc, Bool.and_eq_true] at hs
          exact ⟨by simpa using hs.1, hs.2⟩
        rw [show reFirst (REplus (.cls isJsSpace)) prev (c :: rest) = none from by
            unfold reFirst
            rw [reMatches_wsplus_nonspace rest prev hs2.1]
            rfl]
        show c :: reReplaceGo (REplus (.cls isJsSpace)) [' '] gas (some c) rest =
          c :: rest
        rw [ih rest (some c) hs2.2]

theorem reReplaceAll_ws_id (s : String) (h : wsOk s.data = true) :
    reReplaceAll (REplus (.cls isJsSpace)) " " s = s := by
  unfold reReplaceAll
  rw [show (" " : String).data = [' '] from rfl]
  rw [reReplaceGo_ws_id s.data s.data none h]

theorem dropWhile_id_of_head {p : Char → Bool} {l : List Char}
    (h : (match l with | c :: _ => !(p c) | [] => true) = true) :
    l.dropWhile p = l := by
  cases l with
  | nil => rfl
  | cons c rest =>
    have hc : p c = false := by simpa using h
    simp [List.dropWhile_cons, hc]

theorem jsTrim_id (s : String)
    (h1 : (match s.data with | c :: _ => !(isJsSpace c) | [] => true) = true)
    (h2 : (match s.data.reverse with | c :: _ => !(isJsSpace c) | [] => true) = true) :
    jsTrim s = s := by
  unfold jsTrim trimL
  rw [dropWhile_id_of_head h1, dropWhile_id_of_head h2, List.reverse_reverse]

theorem normalizeWhitespace_id (s : String) (hws : wsOk s.data = true)
    (hdot : (s.data.all fun c => !(c = '.')) = true)
    (h1 : (match s.data with | c :: _ => !(isJsSpace c) | [] => true) = true)
    (h2 : (match s.data.reverse with | c :: _ => !(isJsSpace c) | [] => true) = true) :
    normalizeWhitespace s = s := by
  simp only [normalizeWhitespace]
  rw [reReplaceAll_ws_id s hws]
  rw [show RElit ". " = RE.lit ('.' :: [' ']) from rfl]
  rw [reReplaceAll_lit_id '.' [' '] ".\n" s hdot]
  exact jsTrim_id s h1 h2

theorem foldl_replace_id (l : List String) (x : String)
    (h : ∀ p ∈ l, reReplaceAll (.litci p.data) "" x = x) :
    l.foldl (fun acc phrase => reReplaceAll (.litci phrase.data) "" acc) x = x := by
  induction l with
  | nil => rfl
  | cons p ps ih =>
    simp only [List.foldl_cons, h p (List.mem_cons_self p ps)]
    exact ih fun q hq => h q (List.mem_cons_of_mem p hq)

/-- Every filler phrase begins `"Re"`, `"Du"` or `"I "`; a subject without
those (case-insensitive) character pairs passes all 35 passes unchanged. -/
theorem removeFillerPhrases_id (s : String)
    (hre : pairFreeCi 'r' 'e' s.data = true)
    (hdu : pairFreeCi 'd' 'u' s.data = true)
    (hisp : pairFreeCi 'i' ' ' s.data = true) :
    removeFillerPhrases s = s := by
  apply foldl_replace_id
  intro p hp
  fin_cases hp
  all_goals first
    | exact reReplaceAll_litci_id _ 'R' 'e' _ rfl s hre
    | exact reReplaceAll_litci_id _ 'D' 'u' _ rfl s hdu
    | exact reReplaceAll_litci_id _ 'I' ' ' _ rfl s hisp
/-! ## Concrete inputs used by the claims

The `c8*` family is a single-line job-description input whose
preprocessed form exceeds the 2000-character budget: `smartTruncate`'s
sentence loop guards with `result + sentence` but appends
`" " + sentence`.  The input is 14 space-separated `!`-terminated
sentences of 153 characters each; the leading word `qualifications`
makes the whole line one prioritized section, every earlier
preprocessing stage leaves the line unchanged, and the sentence loop
packs 13 sentences into 2001 characters. -/

def sent1 : String := "qualifications" ++ ⟨List.replicate 138 '-'⟩ ++ "!"

/-- A filler sentence `"mm__nnnnnnnn---...---!"` (153 characters, the two
variable characters keeping the fingerprints pairwise distinct). -/
def sentT (x y : Char) : String :=
  "mm" ++ ⟨[x, y]⟩ ++ "nnnnnnnn" ++ ⟨List.replicate 140 '-'⟩ ++ "!"

def tailPairs : List (Char × Char) :=
  [('k','k'), ('k','v'), ('k','w'), ('k','x'), ('k','y'), ('k','z'),
   ('v','k'), ('v','v'), ('v','w'), ('v','x'), ('v','y'), ('v','z'),
   ('w','k')]

/-- The 14 pairwise-distinct sentences. -/
def c8Sents : List String := sent1 :: tailPairs.map fun p => sentT p.1 p.2

/-- The counterexample job-description input (2155 characters). -/
def c8Input : String := joinSep " " c8Sents

/-- Its preprocessed form: the first 13 sentences (2001 characters). -/
def c8Out : String := joinSep " " (c8Sents.take 13)

set_option maxRecDepth 8000 in
theorem c8_stage_norm : normalizeWhitespace c8Input = c8Input :=
  normalizeWhitespace_id c8Input (by decide) (by decide) (by decide) (by decide)

set_option maxRecDepth 8000 in
theorem c8_stage_filler : removeFillerPhrases c8Input = c8Input :=
  removeFillerPhrases_id c8Input (by decide) (by decide) (by decide)

set_option maxRecDepth 8000 in
theorem c8_stage_dedup : removeDuplicateContent c8Input = c8Input :=
  eqStr_of (by decide)

set_option maxRecDepth 8000 in
theorem c8_stage_extract :
    extractKeyInformation c8Input .jobDescription = c8Input :=
  eqStr_of (by decide)

set_option maxRecDepth 8000 in
theorem c8_split_blank : splitBlankLines c8Input = [c8Input] :=
  eqLs_sound _ _ (by decide)

set_option maxRecDepth 8000 in
theorem c8_priority : truncPriority .jobDescription c8Input = true := by decide

set_option maxRecDepth 8000 in
theorem c8_split_sent : splitSentences c8Input = c8Sents :=
  eqLs_sound _ _ (by decide)

set_option maxRecDepth 8000 in
/-- The sentence-packing loop on the 14 sentences: the 13th still passes
the `result + sentence` guard at exactly the budget (1847 + 153 = 2000),
the `" "` separator pushes the result to 2001 characters, and the 14th
sentence no longer fits. -/
theorem c8_pack : packSentences 2000 c8Sents "" = c8Out :=
  eqStr_of (by decide)

/-! Length facts for the `c8` strings, computed by lemmas (never by deep
kernel evaluation). -/

theorem sent1_length : sent1.length = 153 := by
  simp [sent1, String.length_append, String.length, List.length_replicate]

theorem sentT_length (x y : Char) : (sentT x y).length = 153 := by
  simp [sentT, String.length_append, String.length, List.length_replicate]

theorem c8Sents_mem_length : ∀ s ∈ c8Sents, s.length = 153 := by
  intro s hs
  rcases List.mem_cons.mp hs with rfl | hs2
  · exact sent1_length
  · obtain ⟨p, _, rfl⟩ := List.mem_map.mp hs2
    exact sentT_length p.1 p.2

theorem c8Sents_count : c8Sents.length = 14 := by
  simp [c8Sents, tailPairs]

theorem joinSep_space_length :
    ∀ l : List String, (∀ s ∈ l, s.length = 153) → l ≠ [] →
      (joinSep " " l).length = 154 * l.length - 1
  | [], _, h => absurd rfl h
  | [x], h, _ => by
    rw [show joinSep " " [x] = x from rfl, h x (List.mem_cons_self x [])]
    simp only [List.length_cons, List.length_nil]
  | x :: y :: r, h, _ => by
    have hx := h x (List.mem_cons_self x (y :: r))
    have ht := joinSep_space_length (y :: r)
      (fun s hs => h s (List.mem_cons_of_mem x hs)) (by simp)
    rw [show joinSep " " (x :: y :: r) = x ++ " " ++ joinSep " " (y :: r) from rfl]
    rw [String.length_append, String.length_append, hx, ht]
    rw [show (" " : String).length = 1 from rfl]
    simp only [List.length_cons]
    omega

theorem c8Input_length : c8Input.length = 2155 := by
  rw [show c8Input = joinSep " " c8Sents from rfl]
  rw [joinSep_space_length c8Sents c8Sents_mem_length (by simp [c8Sents])]
  rw [c8Sents_count]

theorem c8Out_length : c8Out.length = 2001 := by
  have hm : ∀ s ∈ c8Sents.take 13, s.length = 153 := fun s hs =>
    c8Sents_mem_length s (List.mem_of_mem_take hs)
  have hl : (c8Sents.take 13).length = 13 := by
    rw [List.length_take, c8Sents_count]
    omega
  rw [show c8Out = joinSep " " (c8Sents.take 13) from rfl]
  rw [joinSep_space_length _ hm (by
    intro h0
    rw [h0] at hl
    simp at hl)]
  rw [hl]

theorem c8Input_ne_empty : ¬(c8Input = "") := by
  intro h
  have h0 : c8Input.length = 0 := by rw [h]; rfl
  rw [c8Input_length] at h0
  omega

/-- The truncation stage on the concrete input: the whole line is one
prioritized section that does not fit, so it is sentence-packed. -/
theorem c8_stage_truncate :
    smartTruncate c8Input 2000 .jobDescription = c8Out := by
  unfold smartTruncate
  rw [if_neg (by rw [strLen_eq, c8Input_length]; omega)]
  show packOthers 2000
      ((splitBlankLines c8Input).filter
        (fun s => !(truncPriority ContentType.jobDescription s)))
      (packPrioritized 2000
        ((splitBlankLines c8Input).filter
          (truncPriority ContentType.jobDescription)) "") = c8Out
  rw [c8_split_blank]
  rw [show ([c8Input].filter (truncPriority ContentType.jobDescription)) =
        [c8Input] from by simp [c8_priority]]
  rw [show ([c8Input].filter fun s =>
        !(truncPriority ContentType.jobDescription s)) = [] from by
      simp [c8_priority]]
  show packPrioritized 2000 [c8Input] "" = c8Out
  simp only [packPrioritized]
  rw [if_neg (by rw [strLen_eq, String.length_append, c8Input_length]; decide)]
  rw [c8_split_sent]
  exact c8_pack

/-- The branch structure of `preprocessText` for a non-empty input,
stated symbolically (no evaluation). -/
theorem preprocessText_eq (text : String) (type : ContentType) (h : ¬(text = "")) :
    preprocessText text type =
      (if strLen (extractKeyInformation (removeDuplicateContent
            (removeFillerPhrases (normalizeWhitespace text))) type) >
          (if type = .resume then MAX_RESUME_LENGTH else MAX_JOB_DESCRIPTION_LENGTH) then
        smartTruncate (extractKeyInformation (removeDuplicateContent
            (removeFillerPhrases (normalizeWhitespace text))) type)
          (if type = .resume then MAX_RESUME_LENGTH else MAX_JOB_DESCRIPTION_LENGTH) type
      else extractKeyInformation (removeDuplicateContent
            (removeFillerPhrases (normalizeWhitespace text))) type) := by
  unfold preprocessText
  rw [if_neg h]

set_option maxRecDepth 2000 in
theorem c8_preprocess : preprocessText c8Input .jobDescription = c8Out := by
  rw [preprocessText_eq c8Input .jobDescription c8Input_ne_empty]
  rw [c8_stage_norm, c8_stage_filler, c8_stage_dedup, c8_stage_extract]
  rw [show (if ContentType.jobDescription = ContentType.resume then
      MAX_RESUME_LENGTH else MAX_JOB_DESCRIPTION_LENGTH) = MAX_JOB_DESCRIPTION_LENGTH from rfl]
  rw [if_pos (by rw [strLen_eq, c8Input_length]; decide)]
  exact c8_stage_truncate


/-! ## Concrete environments, oracles and inputs used by the claims -/

def zeroRnd : ℕ → ℚ := fun _ => 0

def optsStd : GenerateTextOptions :=
  { model := MODEL, prompt := "p", system := none, temperature := none,
    maxTokens := none }

def respEmptyContent : FetchResponse :=
  { ok := true,
    body := .ok "\x7b\"choices\":[\x7b\"message\":\x7b\"content\":\"\"\x7d\x7d]\x7d" }

def envPrimaryDown : AiEnv :=
  { isProd := false, isPrev := true, hasApiKey := true,
    primaryFetch := .error "network down",
    fallbackFetch := .ok respEmptyContent }

def envBothFailPrev : AiEnv :=
  { isProd := false, isPrev := true, hasApiKey := true,
    primaryFetch := .error "network down",
    fallbackFetch := .error "network down too" }

def envBothFailProd (key : Bool) : AiEnv :=
  { isProd := true, isPrev := false, hasApiKey := key,
    primaryFetch := .error "network down",
    fallbackFetch := .error "network down too" }

def envNoKey : AiEnv :=
  { isProd := false, isPrev := false, hasApiKey := false,
    primaryFetch := .error "unreachable", fallbackFetch := .error "unreachable" }

def trivialOracle : NameOracle :=
  { detectNameFromResume := fun _ => ("", 0),
    extractEmail := fun _ => none,
    generateNameFromEmail := fun _ => "" }

def c1Resp : String :=
  "\x7b\"rankedCandidates\":[\x7b\"name\":\"X\",\"score\":150\x7d,\x7b\"score\":20\x7d]\x7d"

def jdC6 : String := "Looking for a Python developer with AWS experience"

def candA : Candidate :=
  { id := "a", name := "Alice",
    resume := "I have 5 years of Python and AWS experience" }

def candB : Candidate :=
  { id := "b", name := "Bob", resume := "Sculptor and oil painter." }

def x7 : String := "I amI am a a good python coder."

def s7 : String :=
  "Skilled python developer with experience.\nWorked at Acme for years."

/-- The validity test of `processAIResponse` on the parsed value:
`parsed && parsed.rankedCandidates && Array.isArray(parsed.rankedCandidates)
&& parsed.rankedCandidates.length > 0` (lines 301–306). -/
def hasNonemptyRankedCandidates (j : Json) : Bool :=
  match jsGet j "rankedCandidates" with
  | some (.arr (_ :: _)) => true
  | _ => false

/-- The condition under which `processAIResponse` discards the model text
(lines 297–311): unparsable JSON, or a parsed value without a non-empty
`rankedCandidates` array. -/
def invalidAIText (t : String) : Bool :=
  match jsonParse (extractJsonFromResponse t) with
  | none => true
  | some j => !(hasNonemptyRankedCandidates j)

/-- The required exhausted-gateway shape: the returned text parses as JSON
and carries exactly one ranked entry named `"Fallback Ranking"`. -/
def singleFallbackEntry (t : String) : Bool :=
  match jsonParse t with
  | some j =>
    match jsGet j "rankedCandidates" with
    | some (.arr [e]) =>
      match jsGet e "name" with
      | some (.str n) => n = "Fallback Ranking"
      | _ => false
    | _ => false
  | none => false

/-! ## Sortedness of the produced rankings -/

instance : IsTotal RankedCandidate (fun a b => b.score ≤ a.score) :=
  ⟨fun a b => le_total b.score a.score⟩

instance : IsTrans RankedCandidate (fun a b => b.score ≤ a.score) :=
  ⟨fun _ _ _ hab hbc => le_trans hbc hab⟩

theorem jsSortByScoreDesc_sorted (l : List RankedCandidate) :
    List.Sorted (fun a b => b.score ≤ a.score) (jsSortByScoreDesc l) :=
  List.sorted_insertionSort _ l

theorem jsSortByScoreDesc_perm (l : List RankedCandidate) :
    List.Perm (jsSortByScoreDesc l) l :=
  List.perm_insertionSort _ l

/-! ## Bounds on the default category scores and the mock score -/

theorem ratFloor_eq (q : ℚ) : q.floor = ⌊q⌋ := rfl

theorem catScore_bounds {r : ℚ} (h0 : 0 ≤ r) (h1 : r < 1) :
    50 ≤ catScore r ∧ catScore r ≤ 79 := by
  have hf0 : (0 : ℤ) ≤ ⌊r * 30⌋ := Int.floor_nonneg.mpr (by nlinarith)
  have hf1 : ⌊r * 30⌋ < 30 := by
    rw [Int.floor_lt]
    push_cast
    nlinarith
  unfold catScore
  rw [ratFloor_eq]
  constructor
  · have h : (0 : ℚ) ≤ ((⌊r * 30⌋ : ℤ) : ℚ) := by exact_mod_cast hf0
    linarith
  · have h : ((⌊r * 30⌋ : ℤ) : ℚ) ≤ 29 := by
      exact_mod_cast (by omega : ⌊r * 30⌋ ≤ 29)
    linarith

theorem generateDefaultCategoryScores_bounds (rnd : ℕ → ℚ) (k : ℕ)
    (hr : ∀ n, 0 ≤ rnd n ∧ rnd n < 1) :
    ∀ p ∈ (generateDefaultCategoryScores rnd k).1, 50 ≤ p.2 ∧ p.2 ≤ 79 := by
  intro p hp
  unfold generateDefaultCategoryScores at hp
  simp only [List.mem_map] at hp
  obtain ⟨ni, _, rfl⟩ := hp
  exact catScore_bounds (hr (k + ni.1)).1 (hr (k + ni.1)).2

theorem lookupAssoc_mem {l : List (String × ℚ)} {key : String} {v : ℚ}
    (h : lookupAssoc l key = some v) : ∃ p ∈ l, p.2 = v := by
  unfold lookupAssoc at h
  obtain ⟨p, hp, hpv⟩ := Option.map_eq_some'.mp h
  exact ⟨p, List.mem_of_find?_eq_some hp, hpv⟩

theorem wtStep_invariant (cs : List (String × ℚ))
    (hcs : ∀ p ∈ cs, 50 ≤ p.2 ∧ p.2 ≤ 79) (w : String × ℚ) (hw : 0 ≤ w.2)
    (acc : ℚ × ℚ) (h2 : 0 ≤ acc.2) (h50 : 50 * acc.2 ≤ acc.1)
    (h79 : acc.1 ≤ 79 * acc.2) :
    0 ≤ (wtStep cs acc w).2 ∧ 50 * (wtStep cs acc w).2 ≤ (wtStep cs acc w).1 ∧
      (wtStep cs acc w).1 ≤ 79 * (wtStep cs acc w).2 := by
  unfold wtStep
  cases hl : lookupAssoc cs w.1 with
  | none => exact ⟨h2, h50, h79⟩
  | some v =>
    obtain ⟨p, hp, hpv⟩ := lookupAssoc_mem hl
    obtain ⟨hv50, hv79⟩ := hcs p hp
    rw [hpv] at hv50 hv79
    show 0 ≤ acc.2 + w.2 ∧ 50 * (acc.2 + w.2) ≤ acc.1 + v * w.2 ∧
      acc.1 + v * w.2 ≤ 79 * (acc.2 + w.2)
    refine ⟨by linarith, by nlinarith, by nlinarith⟩

theorem wtFold_invariant (cs : List (String × ℚ))
    (hcs : ∀ p ∈ cs, 50 ≤ p.2 ∧ p.2 ≤ 79) :
    ∀ (w : List (String × ℚ)), (∀ p ∈ w, 0 ≤ p.2) → ∀ acc : ℚ × ℚ,
      0 ≤ acc.2 → 50 * acc.2 ≤ acc.1 → acc.1 ≤ 79 * acc.2 →
      0 ≤ (w.foldl (wtStep cs) acc).2 ∧
        50 * (w.foldl (wtStep cs) acc).2 ≤ (w.foldl (wtStep cs) acc).1 ∧
        (w.foldl (wtStep cs) acc).1 ≤ 79 * (w.foldl (wtStep cs) acc).2 := by
  intro w
  induction w with
  | nil => intro _ acc h2 h50 h79; exact ⟨h2, h50, h79⟩
  | cons p ps ih =>
    intro hw acc h2 h50 h79
    simp only [List.foldl_cons]
    obtain ⟨s2, s50, s79⟩ :=
      wtStep_invariant cs hcs p (hw p (List.mem_cons_self p ps)) acc h2 h50 h79
    exact ih (fun q hq => hw q (List.mem_cons_of_mem p hq)) (wtStep cs acc p) s2 s50 s79

theorem jsRound_bounds {q : ℚ} (h0 : 50 ≤ q) (h1 : q ≤ 79) :
    50 ≤ jsRound q ∧ jsRound q ≤ 79 := by
  unfold jsRound
  rw [ratFloor_eq]
  constructor
  · apply Int.le_floor.mpr
    push_cast
    linarith
  · have h : (q + 1 / 2 : ℚ) < ((80 : ℤ) : ℚ) := by push_cast; linarith
    have h2 := Int.floor_lt.mpr h
    omega

theorem upsert_nonneg {l : List (String × ℚ)} {key : String} {v : ℚ}
    (hl : ∀ p ∈ l, 0 ≤ p.2) (hv : 0 ≤ v) : ∀ p ∈ upsert l key v, 0 ≤ p.2 := by
  intro p hp
  unfold upsert at hp
  split at hp
  · simp only [List.mem_map] at hp
    obtain ⟨q, hq, rfl⟩ := hp
    by_cases h : q.1 = key
    · simp only [if_pos h]
      exact hv
    · simp only [if_neg h]
      exact hl q hq
  · rcases List.mem_append.mp hp with h | h
    · exact hl p h
    · simp only [List.mem_singleton] at h
      subst h
      exact hv

theorem customWeights_nonneg (cats : List WeightCategory)
    (hc : ∀ cat ∈ cats, 0 ≤ cat.weight) :
    ∀ acc : List (String × ℚ), (∀ p ∈ acc, 0 ≤ p.2) →
      ∀ p ∈ cats.foldl
        (fun acc cat => if cat.id ≠ "" then upsert acc cat.id cat.weight else acc)
        acc,
        0 ≤ p.2 := by
  induction cats with
  | nil => intro acc ha; exact ha
  | cons c l ih =>
    intro acc ha
    simp only [List.foldl_cons]
    apply ih (fun cat h => hc cat (List.mem_cons_of_mem c h))
    by_cases h : c.id ≠ ""
    · simp only [if_pos h]
      exact upsert_nonneg ha (hc c (List.mem_cons_self c l))
    · simp only [if_neg h]
      exact ha

theorem getWeightsFromConfig_nonneg (cfg : Option WeightConfig)
    (hw : ∀ wc, cfg = some wc → ∀ cat ∈ wc.categories, 0 ≤ cat.weight) :
    ∀ p ∈ getWeightsFromConfig cfg, 0 ≤ p.2 := by
  have hd : ∀ p ∈ defaultWeights, 0 ≤ p.2 := by decide
  cases cfg with
  | none => exact hd
  | some wc =>
    simp only [getWeightsFromConfig]
    by_cases h1 : (!wc.useCustomWeights) = true
    · rw [if_pos h1]
      exact hd
    · rw [if_neg h1]
      by_cases h2 : wc.categories.isEmpty = true
      · rw [if_pos h2]
        exact hd
      · rw [if_neg h2]
        by_cases h3 : (wc.categories.foldl
            (fun acc cat => if cat.id ≠ "" then upsert acc cat.id cat.weight else acc)
            []).isEmpty = true
        · rw [if_pos h3]
          exact hd
        · rw [if_neg h3]
          exact customWeights_nonneg wc.categories (hw wc rfl) []
            (fun p hp => absurd hp (List.not_mem_nil p))

theorem mockEntry_score (kw : List String) (w : List (String × ℚ))
    (rnd : ℕ → ℚ) (k i : ℕ) (cand : Candidate) :
    (mockEntry kw w rnd k i cand).1.score =
      ((min (jsRound
          ((w.foldl (wtStep (generateDefaultCategoryScores rnd k).1) (0, 0)).1 /
            (if (w.foldl (wtStep (generateDefaultCategoryScores rnd k).1) (0, 0)).2 = 0
             then 1
             else (w.foldl (wtStep (generateDefaultCategoryScores rnd k).1) (0, 0)).2)))
        95 : ℤ) : ℚ) := rfl

theorem mockEntry_score_bounds (kw : List String) (w : List (String × ℚ))
    (rnd : ℕ → ℚ) (k i : ℕ) (cand : Candidate)
    (hr : ∀ n, 0 ≤ rnd n ∧ rnd n < 1) (hw : ∀ p ∈ w, 0 ≤ p.2) :
    0 ≤ (mockEntry kw w rnd k i cand).1.score ∧
      (mockEntry kw w rnd k i cand).1.score ≤ 100 := by
  obtain ⟨h2, h50, h79⟩ :=
    wtFold_invariant (generateDefaultCategoryScores rnd k).1
      (generateDefaultCategoryScores_bounds rnd k hr) w hw (0, 0)
      (by simp) (by simp) (by simp)
  rw [mockEntry_score]
  set wt := w.foldl (wtStep (generateDefaultCategoryScores rnd k).1) (0, 0) with hwt
  by_cases hz : wt.2 = 0
  · have hw1 : wt.1 = 0 := by
      rw [hz] at h50 h79
      linarith
    rw [if_pos hz, hw1]
    have hj : jsRound (0 / 1) = 0 := by
      unfold jsRound
      rw [ratFloor_eq]
      have h : ((0 : ℚ) / 1 + 1 / 2) = 1 / 2 := by norm_num
      rw [h, Int.floor_eq_zero_iff, Set.mem_Ico]
      constructor <;> norm_num
    rw [hj]
    have hm : min (0 : ℤ) 95 = 0 := min_eq_left (by norm_num)
    rw [hm]
    constructor <;> norm_num
  · have hpos : 0 < wt.2 := lt_of_le_of_ne h2 (Ne.symm hz)
    rw [if_neg hz]
    have hq50 : (50 : ℚ) ≤ wt.1 / wt.2 := (le_div_iff₀ hpos).mpr (by linarith)
    have hq79 : wt.1 / wt.2 ≤ 79 := (div_le_iff₀ hpos).mpr (by linarith)
    obtain ⟨j50, j79⟩ := jsRound_bounds hq50 hq79
    constructor
    · have h : (0 : ℤ) ≤ min (jsRound (wt.1 / wt.2)) 95 :=
        le_min (by omega) (by norm_num)
      exact_mod_cast h
    · have h : min (jsRound (wt.1 / wt.2)) 95 ≤ (100 : ℤ) :=
        le_trans (min_le_right _ _) (by norm_num)
      exact_mod_cast h

theorem mockEntries_mem (kw : List String) (w : List (String × ℚ)) (rnd : ℕ → ℚ) :
    ∀ (cands : List Candidate) (k idx : ℕ) (c : RankedCandidate),
      c ∈ (mockEntries kw w rnd k idx cands).1 →
      ∃ k2 i2 cand, c = (mockEntry kw w rnd k2 i2 cand).1 := by
  intro cands
  induction cands with
  | nil =>
    intro k idx c hc
    exact absurd hc (List.not_mem_nil c)
  | cons a l ih =>
    intro k idx c hc
    rcases List.mem_cons.mp hc with h | h
    · exact ⟨k, idx, a, h⟩
    · exact ih _ _ c h

theorem mockEntries_ne_nil (kw : List String) (w : List (String × ℚ))
    (rnd : ℕ → ℚ) (k idx : ℕ) (a : Candidate) (l : List Candidate) :
    (mockEntries kw w rnd k idx (a :: l)).1 ≠ [] :=
  List.cons_ne_nil _ _

/-! ## The fallback ranking and the reconciler: shape lemmas -/

theorem generateMockRanking_empty (jd : String) (wc : Option WeightConfig)
    (ps : Option PreprocessStats) (rnd : ℕ → ℚ) (k : ℕ) :
    (generateMockRanking [] jd wc ps rnd k).1.rankedCandidates =
      [sampleCandidateEntry (generateDefaultCategoryScores rnd k).1] := rfl

theorem generateMockRanking_sorted (cands : List Candidate) (jd : String)
    (wc : Option WeightConfig) (ps : Option PreprocessStats) (rnd : ℕ → ℚ)
    (k : ℕ) :
    List.Sorted (fun a b => b.score ≤ a.score)
      (generateMockRanking cands jd wc ps rnd k).1.rankedCandidates := by
  unfold generateMockRanking
  split
  · exact List.sorted_singleton _
  · exact jsSortByScoreDesc_sorted _

theorem generateMockRanking_ne_nil (cands : List Candidate) (jd : String)
    (wc : Option WeightConfig) (ps : Option PreprocessStats) (rnd : ℕ → ℚ)
    (k : ℕ) :
    (generateMockRanking cands jd wc ps rnd k).1.rankedCandidates ≠ [] := by
  unfold generateMockRanking
  split
  · exact List.cons_ne_nil _ _
  case isFalse h =>
    cases cands with
    | nil => simp at h
    | cons a l =>
      intro hnil
      have hnil2 : jsSortByScoreDesc
          (mockEntries (extractKeywords jd) (getWeightsFromConfig wc) rnd k 0
            (a :: l)).1 = [] := hnil
      have hp := jsSortByScoreDesc_perm
        (mockEntries (extractKeywords jd) (getWeightsFromConfig wc) rnd k 0
          (a :: l)).1
      rw [hnil2] at hp
      exact mockEntries_ne_nil _ _ _ _ _ _ _ hp.symm.eq_nil

theorem generateMockRanking_score_bounds (cands : List Candidate) (jd : String)
    (wc : Option WeightConfig) (ps : Option PreprocessStats) (rnd : ℕ → ℚ)
    (k : ℕ) (hr : ∀ n, 0 ≤ rnd n ∧ rnd n < 1)
    (hwc : ∀ wc0, wc = some wc0 → ∀ cat ∈ wc0.categories, 0 ≤ cat.weight) :
    ∀ c ∈ (generateMockRanking cands jd wc ps rnd k).1.rankedCandidates,
      0 ≤ c.score ∧ c.score ≤ 100 := by
  intro c hc
  unfold generateMockRanking at hc
  split at hc
  · have h : c = sampleCandidateEntry (generateDefaultCategoryScores rnd k).1 := by
      rcases List.mem_cons.mp hc with h | h
      · exact h
      · exact absurd h (List.not_mem_nil c)
    subst h
    constructor <;> norm_num [sampleCandidateEntry]
  · have hc2 : c ∈ (mockEntries (extractKeywords jd) (getWeightsFromConfig wc)
        rnd k 0 cands).1 :=
      (jsSortByScoreDesc_perm _).mem_iff.mp hc
    obtain ⟨k2, i2, cand, rfl⟩ := mockEntries_mem _ _ _ _ _ _ _ hc2
    exact mockEntry_score_bounds _ _ _ _ _ _ hr (getWeightsFromConfig_nonneg wc hwc)

theorem processAIResponse_sorted (t : String) (cands : List Candidate)
    (jd : String) (wc : Option WeightConfig) (rnd : ℕ → ℚ) (k : ℕ) :
    List.Sorted (fun a b => b.score ≤ a.score)
      (processAIResponse t cands jd wc rnd k).1.rankedCandidates := by
  simp only [processAIResponse]
  split
  · exact generateMockRanking_sorted cands jd wc none rnd k
  · split
    · exact jsSortByScoreDesc_sorted _
    · exact generateMockRanking_sorted cands jd wc none rnd k

/-! ## Gateway lemmas: the fallback tier always reports itself -/

theorem missingMessageResult_usedFallback (c0 : Json) (s : String) :
    (prodResponseHandling.missingMessageResult c0 true s).usedFallback = true := by
  simp only [prodResponseHandling.missingMessageResult]
  split <;> rfl

theorem prodResponseHandling_usedFallback (resp : FetchResponse) (a b : String)
    (r : GenerateTextResult) (h : prodResponseHandling resp true a b = .ok r) :
    r.usedFallback = true := by
  simp only [prodResponseHandling] at h
  repeat' split at h
  all_goals first
    | exact Except.noConfusion h
    | (injection h with h1; subst h1; rfl)
    | (injection h with h1; subst h1; exact missingMessageResult_usedFallback _ _)

theorem generateTextWithFallbackModel_usedFallback (env : AiEnv)
    (options : GenerateTextOptions) :
    (generateTextWithFallbackModel env options).usedFallback = true := by
  simp only [generateTextWithFallbackModel]
  split
  case h_1 r heq =>
    repeat' split at heq
    all_goals first
      | exact Except.noConfusion heq
      | (injection heq with h1; subst h1; rfl)
      | (injection heq with h1; subst h1;
         exact prodResponseHandling_usedFallback _ _ _ _ (by assumption))
  case h_2 e heq => split <;> rfl

/-! ## The claims -/

/-- C1 (amended): every ranking list produced by `processAIResponse` and by
`generateMockRanking` is sorted in non-increasing score order, and — when
the random draws lie in `[0,1)` and all configured weights are non-negative
— every fallback-ranker score lies in `[0,100]`.  (The original claim also
bounded the reconciled AI scores by `[0,100]`; `processAIResponse` does not
clamp them, see the counterexample.) -/
theorem c1_rankings_sorted_and_mock_bounded (t jd : String)
    (vCands cands : List Candidate) (wc : Option WeightConfig)
    (ps : Option PreprocessStats) (rnd : ℕ → ℚ) (k : ℕ)
    (hr : ∀ n, 0 ≤ rnd n ∧ rnd n < 1)
    (hwc : ∀ wc0, wc = some wc0 → ∀ cat ∈ wc0.categories, 0 ≤ cat.weight) :
    List.Sorted (fun a b => b.score ≤ a.score)
        (processAIResponse t vCands jd wc rnd k).1.rankedCandidates ∧
      List.Sorted (fun a b => b.score ≤ a.score)
        (generateMockRanking cands jd wc ps rnd k).1.rankedCandidates ∧
      ∀ c ∈ (generateMockRanking cands jd wc ps rnd k).1.rankedCandidates,
        0 ≤ c.score ∧ c.score ≤ 100 :=
  ⟨processAIResponse_sorted t vCands jd wc rnd k,
   generateMockRanking_sorted cands jd wc ps rnd k,
   generateMockRanking_score_bounds cands jd wc ps rnd k hr hwc⟩

theorem c1_witness :
    (∀ n, 0 ≤ zeroRnd n ∧ zeroRnd n < 1) ∧
      List.Sorted (fun a b => b.score ≤ a.score)
        (processAIResponse "x" [] "" none zeroRnd 0).1.rankedCandidates ∧
      List.Sorted (fun a b => b.score ≤ a.score)
        (generateMockRanking [] "" none none zeroRnd 0).1.rankedCandidates ∧
      ∀ c ∈ (generateMockRanking [] "" none none zeroRnd 0).1.rankedCandidates,
        0 ≤ c.score ∧ c.score ≤ 100 := by
  have hr : ∀ n, 0 ≤ zeroRnd n ∧ zeroRnd n < 1 :=
    fun n => ⟨le_refl 0, by norm_num [zeroRnd]⟩
  have h := c1_rankings_sorted_and_mock_bounded "x" "" [] [] none none zeroRnd 0
    hr (fun wc0 hh => by simp at hh)
  exact ⟨hr, h.1, h.2.1, h.2.2⟩

section
attribute [local semireducible] Rat.mul Rat.add Rat.sub Rat.inv

set_option maxRecDepth 4000 in
/-- An AI response with a score of `150` passes through the reconciler
unclamped: the original `[0,100]` bound of C1 is false. -/
theorem c1_counterexample :
    ¬ ∀ c ∈ (processAIResponse c1Resp [] "" none zeroRnd 0).1.rankedCandidates,
        0 ≤ c.score ∧ c.score ≤ 100 := by decide

end

/-- C2 (amended): whenever the primary model call throws, `generateText`
still returns, with `usedFallback = true`.  (The original claim also
required a non-empty `text`; a fallback success with empty message content
returns `text = ""`, see the counterexample.) -/
theorem c2_primary_failure_uses_fallback (env : AiEnv)
    (options : GenerateTextOptions) (e : String)
    (he : env.primaryFetch = .error e) :
    (generateText env options).usedFallback = true := by
  simp only [generateText]
  split
  case h_1 r heq =>
    rw [he] at heq
    split at heq
    · exact Except.noConfusion heq
    · have heq2 : (Except.error e : Except String GenerateTextResult) = .ok r := heq
      exact Except.noConfusion heq2
  case h_2 e2 heq =>
    split
    · exact generateTextWithFallbackModel_usedFallback env options
    · split <;> rfl

theorem c2_witness :
    envPrimaryDown.primaryFetch = .error "network down" ∧
      (generateText envPrimaryDown optsStd).usedFallback = true :=
  ⟨rfl, c2_primary_failure_uses_fallback envPrimaryDown optsStd "network down" rfl⟩

set_option maxRecDepth 4000 in
/-- The primary call throws, the fallback succeeds with empty message
content: the returned `text` is empty, refuting the non-empty-text part of
the original C2. -/
theorem c2_counterexample :
    envPrimaryDown.primaryFetch = .error "network down" ∧
      (generateText envPrimaryDown optsStd).text = "" :=
  ⟨rfl, by decide⟩

set_option maxRecDepth 8000 in
/-- C3 (amended): in production mode (and only there), when both gateway
tiers throw, the returned text is the synthetic JSON payload with exactly
one `"Fallback Ranking"` entry — with or without an API key. -/
theorem c3_prod_both_fail_single_entry (key : Bool) :
    singleFallbackEntry (generateText (envBothFailProd key) optsStd).text = true := by
  cases key <;> decide

set_option maxRecDepth 4000 in
/-- Outside production mode the exhausted gateway returns a plain error
sentence, which does not parse as JSON: the original C3 (quantified over
every environment) is false. -/
theorem c3_counterexample :
    (jsonParse (generateText envBothFailPrev optsStd).text).isNone = true := by decide

/-- C4: whenever the model text is rejected by the reconciler's validity
test — unparsable JSON (for example `"not json"`), a missing
`rankedCandidates`, a non-array, or an empty array — `processAIResponse`
returns exactly the deterministic fallback ranking, whose candidate list is
never empty. -/
theorem c4_invalid_ai_output_falls_back (t jd : String)
    (cands : List Candidate) (wc : Option WeightConfig) (rnd : ℕ → ℚ) (k : ℕ)
    (h : invalidAIText t = true) :
    processAIResponse t cands jd wc rnd k =
        generateMockRanking cands jd wc none rnd k ∧
      (processAIResponse t cands jd wc rnd k).1.rankedCandidates ≠ [] := by
  have heq : processAIResponse t cands jd wc rnd k =
      generateMockRanking cands jd wc none rnd k := by
    unfold invalidAIText at h
    simp only [processAIResponse]
    split
    · rfl
    case h_2 j hj =>
      rw [hj] at h
      have h2 : (!(hasNonemptyRankedCandidates j)) = true := h
      split
      case h_1 c cs hg =>
        have h3 : hasNonemptyRankedCandidates j = true := by
          unfold hasNonemptyRankedCandidates
          rw [hg]
        rw [h3] at h2
        simp at h2
      case h_2 hg => rfl
  refine ⟨heq, ?_⟩
  rw [heq]
  exact generateMockRanking_ne_nil cands jd wc none rnd k

set_option maxRecDepth 4000 in
theorem c4_witness :
    invalidAIText "not json" = true ∧
      ((processAIResponse "not json" [] "" none zeroRnd 0 =
          generateMockRanking [] "" none none zeroRnd 0) ∧
        (processAIResponse "not json" [] "" none zeroRnd 0).1.rankedCandidates ≠ []) :=
  ⟨by decide, c4_invalid_ai_output_falls_back "not json" "" [] none zeroRnd 0 (by decide)⟩

theorem validateAICandidate_name (rnd : ℕ → ℚ) (k : ℕ) (c : Json) :
    (validateAICandidate rnd k c).1.name =
      jsGetOr c "name" (.str "Unknown Candidate") := rfl

theorem validateAICandidate_score (rnd : ℕ → ℚ) (k : ℕ) (c : Json) :
    (validateAICandidate rnd k c).1.score =
      match jsGet c "score" with
      | some (.num q) => q
      | _ => 50 := rfl

theorem validateAICandidate_strengths (rnd : ℕ → ℚ) (k : ℕ) (c : Json) :
    (validateAICandidate rnd k c).1.strengths =
      match jsGet c "strengths" with
      | some (.arr l) => l
      | _ => [.str "Has relevant experience"] := rfl

theorem validateAICandidate_weaknesses (rnd : ℕ → ℚ) (k : ℕ) (c : Json) :
    (validateAICandidate rnd k c).1.weaknesses =
      match jsGet c "weaknesses" with
      | some (.arr l) => l
      | _ => [] := rfl

theorem validateAICandidate_analysis (rnd : ℕ → ℚ) (k : ℕ) (c : Json) :
    (validateAICandidate rnd k c).1.analysis =
      jsGetOr c "analysis"
        (.str "This candidate has been evaluated based on their resume.") := rfl

theorem validateAICandidate_categoryScores_none (rnd : ℕ → ℚ) (k : ℕ) (c : Json)
    (h : jsGet c "categoryScores" = none) :
    (validateAICandidate rnd k c).1.categoryScores =
      some (catScoresToJson (generateDefaultCategoryScores rnd k).1) := by
  unfold validateAICandidate
  rw [h]

theorem validateAICandidate_categoryScores_isSome (rnd : ℕ → ℚ) (k : ℕ)
    (c : Json) :
    (validateAICandidate rnd k c).1.categoryScores ≠ none :=
  Option.some_ne_none _

/-- C5: field-level repair of one parsed AI entry — a missing `name`
becomes `"Unknown Candidate"`, a missing or non-numeric `score` becomes
`50`, missing or non-array `strengths` become the single generic
placeholder, missing or non-array `weaknesses` become `[]`, a missing
`analysis` becomes the generic sentence, and missing `categoryScores`
become default per-category scores in `[50,80)`; `categoryScores` is
always populated afterwards. -/
theorem c5_field_repair (rnd : ℕ → ℚ) (k : ℕ) (c : Json)
    (hr : ∀ n, 0 ≤ rnd n ∧ rnd n < 1) :
    (jsGet c "name" = none →
      (validateAICandidate rnd k c).1.name = .str "Unknown Candidate") ∧
    ((∀ q, jsGet c "score" ≠ some (.num q)) →
      (validateAICandidate rnd k c).1.score = 50) ∧
    ((∀ l, jsGet c "strengths" ≠ some (.arr l)) →
      (validateAICandidate rnd k c).1.strengths = [.str "Has relevant experience"]) ∧
    ((∀ l, jsGet c "weaknesses" ≠ some (.arr l)) →
      (validateAICandidate rnd k c).1.weaknesses = []) ∧
    (jsGet c "analysis" = none →
      (validateAICandidate rnd k c).1.analysis =
        .str "This candidate has been evaluated based on their resume.") ∧
    (jsGet c "categoryScores" = none →
      (validateAICandidate rnd k c).1.categoryScores =
          some (catScoresToJson (generateDefaultCategoryScores rnd k).1) ∧
        ∀ p ∈ (generateDefaultCategoryScores rnd k).1, 50 ≤ p.2 ∧ p.2 < 80) ∧
    (validateAICandidate rnd k c).1.categoryScores ≠ none := by
  refine ⟨?_, ?_, ?_, ?_, ?_, ?_, validateAICandidate_categoryScores_isSome rnd k c⟩
  · intro h
    rw [validateAICandidate_name]
    unfold jsGetOr
    rw [h]
  · intro h
    rw [validateAICandidate_score]
    cases hs : jsGet c "score" with
    | none => rfl
    | some v =>
      cases v with
      | num q => exact absurd hs (h q)
      | null => rfl
      | bool b => rfl
      | str s => rfl
      | arr l => rfl
      | obj fields => rfl
  · intro h
    rw [validateAICandidate_strengths]
    cases hs : jsGet c "strengths" with
    | none => rfl
    | some v =>
      cases v with
      | arr l => exact absurd hs (h l)
      | null => rfl
      | bool b => rfl
      | num q => rfl
      | str s => rfl
      | obj fields => rfl
  · intro h
    rw [validateAICandidate_weaknesses]
    cases hs : jsGet c "weaknesses" with
    | none => rfl
    | some v =>
      cases v with
      | arr l => exact absurd hs (h l)
      | null => rfl
      | bool b => rfl
      | num q => rfl
      | str s => rfl
      | obj fields => rfl
  · intro h
    rw [validateAICandidate_analysis]
    unfold jsGetOr
    rw [h]
  · intro h
    refine ⟨validateAICandidate_categoryScores_none rnd k c h, ?_⟩
    intro p hp
    obtain ⟨h50, h79⟩ := generateDefaultCategoryScores_bounds rnd k hr p hp
    exact ⟨h50, lt_of_le_of_lt h79 (by norm_num)⟩

theorem c5_witness :
    (∀ n, 0 ≤ zeroRnd n ∧ zeroRnd n < 1) ∧
      (validateAICandidate zeroRnd 0 (.obj [])).1.name = .str "Unknown Candidate" ∧
      (validateAICandidate zeroRnd 0 (.obj [])).1.score = 50 ∧
      (validateAICandidate zeroRnd 0 (.obj [])).1.strengths =
        [.str "Has relevant experience"] ∧
      (validateAICandidate zeroRnd 0 (.obj [])).1.weaknesses = [] ∧
      (validateAICandidate zeroRnd 0 (.obj [])).1.categoryScores ≠ none := by
  have hr : ∀ n, 0 ≤ zeroRnd n ∧ zeroRnd n < 1 :=
    fun n => ⟨le_refl 0, by norm_num [zeroRnd]⟩
  have h := c5_field_repair zeroRnd 0 (.obj []) hr
  refine ⟨hr, h.1 rfl, h.2.1 ?_, h.2.2.1 ?_, h.2.2.2.1 ?_, h.2.2.2.2.2.2⟩
  · intro q hq
    simp [jsGet] at hq
  · intro l hl
    simp [jsGet] at hl
  · intro l hl
    simp [jsGet] at hl

section
attribute [local semireducible] Rat.mul Rat.add Rat.sub Rat.inv

set_option maxRecDepth 4000 in
/-- C6 (amended): for the fixed job description, the matched-keyword
strengths of the Python/AWS candidate include a `"python"`-referencing
entry but — because `extractKeywords` drops cleaned words of length `≤ 3`
such as `aws` — no `"aws"`-referencing entry; and the mock score never
depends on the candidate at all, so no candidate can outscore another
under the same weight configuration and draw position. -/
theorem c6_keyword_strengths :
    ((mockEntry (extractKeywords jdC6) (getWeightsFromConfig none) zeroRnd 0 0
        candA).1.strengths.any fun s =>
          match s with
          | .str t => jsIncludes (jsToLower t) "python"
          | _ => false) = true ∧
      ((mockEntry (extractKeywords jdC6) (getWeightsFromConfig none) zeroRnd 0 0
        candA).1.strengths.all fun s =>
          match s with
          | .str t => !(jsIncludes (jsToLower t) "aws")
          | _ => false) = true ∧
      ∀ (kw : List String) (w : List (String × ℚ)) (rnd : ℕ → ℚ) (k i j : ℕ)
        (c d : Candidate),
        (mockEntry kw w rnd k i c).1.score = (mockEntry kw w rnd k j d).1.score :=
  ⟨by decide, by decide, fun kw w rnd k i j c d => rfl⟩

set_option maxRecDepth 8000 in
/-- In the actual fallback ranking for the C6 scenario both candidates
score `50` (the keyword matches never reach the score), and no strength of
the matching candidate mentions `"aws"`: the strict-inequality and
`"aws"`-strength parts of the original C6 are false. -/
theorem c6_counterexample :
    ((generateMockRanking [candA, candB] jdC6 none none zeroRnd 0).1.rankedCandidates.map
      fun c => (c.score,
        c.strengths.any fun s =>
          match s with
          | .str t => jsIncludes (jsToLower t) "aws"
          | _ => true)) = [(50, false), (50, false)] := by decide

end

set_option maxRecDepth 8000 in
set_option maxHeartbeats 1000000 in
/-- C7 (amended): the preprocessor is idempotent on stabilised text such as
`s7` — but not in general, see the counterexample. -/
theorem c7_idempotent_on_stable :
    preprocessText (preprocessText s7 .resume) .resume = preprocessText s7 .resume :=
  eqStr_of (by decide)

set_option maxRecDepth 8000 in
set_option maxHeartbeats 1000000 in
/-- Filler-phrase removal can splice two halves of `"I am"` back together,
so a second preprocessor pass removes text the first pass left: the
universally-quantified idempotence of C7 is false. -/
theorem c7_counterexample :
    ¬ (preprocessText (preprocessText x7 .resume) .resume =
        preprocessText x7 .resume) := by decide

/-- C8 (amended): the preprocessor output exceeds the type-specific budget
by at most the two characters of one `"\n\n"` separator: at most `4002`
for resumes and `2002` for job descriptions.  The exact budgets of the
original claim are exceeded, see the counterexample. -/
theorem c8_preprocess_budget (x : String) :
    (preprocessText x .resume).length ≤ MAX_RESUME_LENGTH + 2 ∧
      (preprocessText x .jobDescription).length ≤ MAX_JOB_DESCRIPTION_LENGTH + 2 := by
  constructor
  · have h := preprocessText_length_le x .resume
    simpa using h
  · have h := preprocessText_length_le x .jobDescription
    simpa using h

/-- A 2155-character job description whose preprocessor output keeps 2001
characters: the 2000-character budget of the original C8 is exceeded. -/
theorem c8_counterexample :
    MAX_JOB_DESCRIPTION_LENGTH < (preprocessText c8Input .jobDescription).length := by
  rw [c8_preprocess, c8Out_length]
  decide

set_option maxRecDepth 8000 in
/-- C9: the email, dashed-phone and profile-URL patterns redact as
specified, but the parenthesized-phone pattern of the source —
`/$$\d{3}$$[-.\s]?\d{3}[-.\s]?\d{4}/` with its `\(`…`\)` mangled into `$$`
anchors — can never match, so `(555) 123-4567` survives unredacted. -/
theorem c9_contact_filter_divergence :
    filterContactInfo "Call me at (555) 123-4567 today" =
        "Call me at (555) 123-4567 today" ∧
      jsIncludes (filterContactInfo "Contact alice@example.com now")
        "@example.com" = false ∧
      jsIncludes (filterContactInfo "See linkedin.com/in/alice for info")
        "linkedin.com" = false ∧
      filterContactInfo "Call 555-123-4567 now" = "Call [PHONE REMOVED] now" :=
  ⟨eqStr_of (by decide), by decide, by decide, eqStr_of (by decide)⟩

theorem mapWithIndex_blank (oracle : NameOracle) (cands : List Candidate)
    (h : ∀ c ∈ cands, c.resume = "") :
    ∀ (i : ℕ), ∀ c ∈ mapWithIndex (processCandidate oracle) i cands,
      c.resume = "" := by
  induction cands with
  | nil =>
    intro i c hc
    exact absurd hc (List.not_mem_nil c)
  | cons a l ih =>
    intro i c hc
    rcases List.mem_cons.mp hc with h1 | h1
    · have ha := h a (List.mem_cons_self a l)
      subst h1
      unfold processCandidate
      rw [if_pos ha]
      exact ha
    · exact ih (fun q hq => h q (List.mem_cons_of_mem a hq)) (i + 1) c h1

/-- C10: with an empty candidate list, or one whose resumes are all blank,
`rankCandidates` still returns, and its ranking list is non-empty; for the
empty list it is exactly the fabricated `"Sample Candidate"` entry with
score `75`. -/
theorem c10_rank_candidates_total (env : AiEnv) (oracle : NameOracle)
    (rnd : ℕ → ℚ) (k : ℕ) (jd : String) (cands : List Candidate)
    (wc : Option WeightConfig)
    (h : cands = [] ∨ ∀ c ∈ cands, c.resume = "") :
    (rankCandidates env oracle rnd k jd cands wc).1.rankedCandidates ≠ [] ∧
      (cands = [] →
        (rankCandidates env oracle rnd k jd cands wc).1.rankedCandidates =
            [sampleCandidateEntry (generateDefaultCategoryScores rnd k).1] ∧
          (sampleCandidateEntry (generateDefaultCategoryScores rnd k).1).score = 75) := by
  constructor
  · simp only [rankCandidates]
    split
    · exact generateMockRanking_ne_nil _ _ _ _ _ _
    · split
      · exact generateMockRanking_ne_nil _ _ _ _ _ _
      case isFalse hvc =>
        exfalso
        apply hvc
        rcases h with rfl | hblank
        · rfl
        · have hb := mapWithIndex_blank oracle cands hblank 0
          rw [List.isEmpty_iff, List.filter_eq_nil_iff]
          intro c hc
          have hcr := hb c hc
          rw [hcr]
          decide
  · rintro rfl
    refine ⟨?_, rfl⟩
    simp only [rankCandidates]
    split
    · exact generateMockRanking_empty _ _ _ _ _
    · split
      · exact generateMockRanking_empty _ _ _ _ _
      case isFalse hvc => exact absurd rfl hvc

theorem c10_witness :
    (([] : List Candidate) = [] ∨ ∀ c ∈ ([] : List Candidate), c.resume = "") ∧
      (rankCandidates envNoKey trivialOracle zeroRnd 0 "job" [] none).1.rankedCandidates ≠ [] :=
  ⟨Or.inl rfl,
   (c10_rank_candidates_total envNoKey trivialOracle zeroRnd 0 "job" [] none
     (Or.inl rfl)).1⟩

end ResumeRanker
